import Mathlib

/-!
# sendmail-pgp: a shallow embedding and its properties

The development embeds the decision logic of the `sendmail` package
(`sendmail.go`, `util.go`) and of the command `cmd/sendmail` (`main.go`,
`smtpsrv.go`).

* A Go `string` and a Go `[]byte` are both byte sequences: `Bytes`, a list of
  natural numbers (every literal used below is ASCII, so each byte is the
  code of the character written in the source).
* Library calls (`net/mail`, `gopenpgp`, `crypto/md5`, `os`, `parsemail`) and
  the key store under `/keys` are fields of a `World`; every theorem holds for
  every `World`.
* Effectful code is a `Run`: the ordered trace of the effects performed,
  and either a value or the way the process stopped (`log.Fatal`, a runtime
  panic).
-/

set_option linter.dupNamespace false

namespace Sendmail

/-! ## Byte strings and the `strings` functions the code calls -/

/-- A Go `string` or `[]byte`. -/
abbrev Bytes := List Nat

/-- The bytes of an ASCII literal of the source. -/
def str (s : String) : Bytes := s.toList.map Char.toNat

/-- Go `strings.Split(s, sep)` for a one-byte separator: the pieces of `s`
between consecutive occurrences of `sep`, always at least one piece. -/
def stringsSplit (sep : Nat) : Bytes → List Bytes
  | [] => [[]]
  | c :: cs =>
    if c = sep then [] :: stringsSplit sep cs
    else
      match stringsSplit sep cs with
      | [] => [[c]]
      | p :: ps => (c :: p) :: ps

/-- Go `strings.Join(elems, sep)`. -/
def stringsJoin (sep : Bytes) : List Bytes → Bytes
  | [] => []
  | [x] => x
  | x :: y :: rest => x ++ sep ++ stringsJoin sep (y :: rest)

/-- Go `strings.Count(s, sep)` for a one-byte separator. -/
def stringsCount (sep : Nat) (s : Bytes) : Nat := s.count sep

/-- Go `strings.Contains(s, substr)`: `substr` occurs in `s` as a contiguous
run. -/
def stringsContains : Bytes → Bytes → Bool
  | [], substr => substr.isEmpty
  | c :: cs, substr => substr.isPrefixOf (c :: cs) || stringsContains cs substr

/-- The byte `@`. -/
def atSign : Nat := 64

/-! ## `util.go` -/

/-- `GetDomainFromAddress` (util.go:74-80). -/
def GetDomainFromAddress (address : Bytes) : Bytes :=
  let components := stringsSplit atSign address
  if components.length = 2 then components.getD 1 [] else []

/-! ## `main.go`: the allow-list -/

/-- `arrayDomains.Contains` (main.go:31-38): the loop over the allow-list. -/
def arrayDomains.Contains : List Bytes → Bytes → Bool
  | [], _ => false
  | domain :: rest, s => if domain = s then true else arrayDomains.Contains rest s

/-- The guard written at main.go:148 and smtpsrv.go:39:
`len(senderDomains) > 0 && !senderDomains.Contains(senderDomain)`. -/
def unauthorized (senderDomains : List Bytes) (senderDomain : Bytes) : Bool :=
  decide (senderDomains.length > 0) && !arrayDomains.Contains senderDomains senderDomain

/-- The part of the address after its first `@` (the words of the
specification: "the substring after the single `@`"). -/
def afterAt (a : Bytes) : Bytes := (a.dropWhile (fun c => c != atSign)).drop 1

/-! ## Effects, traces and the environment -/

/-- A Go `error` value that is not nil, by its message. -/
abbrev GoError := Bytes

/-- What `fmt` prints for an `error` that may be nil. -/
def errText : Option GoError → Bytes
  | none => str "<nil>"
  | some e => e

/-- The outcome of `os.ReadFile`: the content, an error for which
`os.IsNotExist` is true, or any other error. -/
inductive FileRead where
  | data (content : Bytes)
  | notExist
  | failed
  deriving DecidableEq, Repr

/-- The bytes `os.ReadFile` returns next to its error (nil on an error). -/
def FileRead.content : FileRead → Bytes
  | .data c => c
  | .notExist => []
  | .failed => []

/-- The value of `os.IsNotExist(err)` for the error of a read. -/
def FileRead.isNotExist : FileRead → Bool
  | .notExist => true
  | _ => false

/-- `Config` (sendmail.go:20-25). -/
structure Config where
  Sender : Bytes
  Recipients : List Bytes
  Subject : Bytes
  Body : Bytes
  deriving DecidableEq, Repr

/-- `mail.Address` of `net/mail`. -/
structure Address where
  Name : Bytes
  Address : Bytes
  deriving DecidableEq, Repr

/-- `mail.Header`, a Go map from header name to its values: an
association list in which the first entry of a name is the live one. -/
abbrev Header := List (Bytes × List Bytes)

/-- `mail.Message` of `net/mail`, the body reader by its content. -/
structure Message where
  Header : Header
  Body : Bytes
  deriving DecidableEq, Repr

/-- `Envelope` (sendmail.go:28-31). -/
structure Envelope where
  Message : Message
  recipientsList : List Address
  deriving DecidableEq, Repr

/-- Modelled from the spec: the `Result` a send reports (its declaration is
in a file of the package that is not part of the sources read here), "level:
Severity, message: string, error: optional error, fields: structured
mapping". -/
structure Result where
  Level : Nat
  Error : Option GoError
  Message : Bytes
  Fields : List (Bytes × Bytes)
  deriving DecidableEq, Repr

/-- Modelled from the spec: the severities of a `Result`, "ordered: Fatal <
Warn < Info" (their declaration is in the file that declares `Result`). -/
def FatalLevel : Nat := 0

/-- Modelled from the spec: see `FatalLevel`. -/
def WarnLevel : Nat := 1

/-- Modelled from the spec: see `FatalLevel`. -/
def InfoLevel : Nat := 2

/-- One observable step of a run, in the order performed. -/
inductive Effect where
  | readFile (path : Bytes)
  | print (msg : Bytes)
  | logDebug (msg : Bytes)
  | logInfo (fields : List (Bytes × Bytes)) (msg : Bytes)
  | logWarn (fields : List (Bytes × Bytes)) (err : Option GoError)
  | logError (msg : Bytes)
  | encryptArmored (key body : Bytes)
  | encryptSignArmored (key privkey passphrase body : Bytes)
  | newEnvelope (config : Config)
  | send (envelope : Envelope)
  deriving DecidableEq, Repr

/-- How a process ends other than by returning: `log.Fatal` (exit status 1
after logging the message) or a runtime panic. -/
inductive Stop where
  | fatal (msg : Bytes)
  | panic (msg : Bytes)
  deriving DecidableEq, Repr

/-- An effectful computation: the effects performed, then a value or a stop. -/
structure Run (α : Type) where
  trace : List Effect
  result : Except Stop α

/-- A computation that only returns. -/
def Run.ret {α : Type} (a : α) : Run α := ⟨[], .ok a⟩

/-- Sequencing: the effects of the first, then (unless it stopped) those of
the second. -/
def Run.andThen {α β : Type} (x : Run α) (f : α → Run β) : Run β :=
  match x.result with
  | .error e => ⟨x.trace, .error e⟩
  | .ok a => ⟨x.trace ++ (f a).trace, (f a).result⟩

instance : Monad Run where
  pure := Run.ret
  bind := Run.andThen

/-- Perform one effect. -/
def emit (e : Effect) : Run Unit := ⟨[e], .ok ()⟩

/-- `log.Fatal(msg)`: the process exits. -/
def logFatal {α : Type} (msg : Bytes) : Run α := ⟨[], .error (.fatal msg)⟩

/-- A runtime panic. -/
def goPanic {α : Type} (msg : Bytes) : Run α := ⟨[], .error (.panic msg)⟩

/-- Go `xs[0]`: a panic on an empty slice. -/
def firstOf (xs : List Bytes) : Run Bytes :=
  match xs with
  | [] => goPanic (str "runtime error: index out of range [0] with length 0")
  | x :: _ => pure x

/-- Everything outside the repository that the code calls. -/
structure World where
  /-- `os.ReadFile` / `ioutil.ReadFile` on the key store. -/
  readFile : Bytes → FileRead
  /-- `md5.New()`, `Write`, `Sum(nil)`: the 16-byte digest. -/
  md5 : Bytes → Bytes
  /-- `os.Getenv`. -/
  getenv : Bytes → Bytes
  /-- `helper.EncryptMessageArmored(key, plaintext)`. -/
  encryptMessageArmored : Bytes → Bytes → Except GoError Bytes
  /-- `helper.EncryptSignMessageArmored(key, privkey, passphrase, plaintext)`. -/
  encryptSignMessageArmored : Bytes → Bytes → Bytes → Bytes → Except GoError Bytes
  /-- `mail.ReadMessage`. -/
  readMessage : Bytes → Except GoError Message
  /-- `mail.ParseAddressList`. -/
  parseAddressList : Bytes → Except GoError (List Address)
  /-- `user.Current()`, the `Username` of the user. -/
  currentUser : Except GoError Bytes
  /-- `os.Hostname()`. -/
  hostname : Except GoError Bytes
  /-- `parsemail.Parse`, the `Subject` and `HTMLBody` of the parsed mail. -/
  parseMail : Bytes → Except GoError (Bytes × Bytes)
  /-- Modelled from the spec: `Envelope.SendLikeMTA` (declared in a file that
  is not part of the sources read here), "Send(Envelope) -> sequence of
  Result (ordered, finite)". -/
  sendLikeMTA : Envelope → List Result
  /-- The subject argument of the call of `GetDumbMessage` at sendmail.go:38:
  the call site passes three arguments to a function of four parameters and
  names none for `subject`. -/
  dumbSubject : Config → Bytes

/-- Lift a Go `(value, err)` result into a run, stopping with `log.Fatal(err)`
on an error. -/
def orFatal {α : Type} (r : Except GoError α) : Run α :=
  match r with
  | .ok a => pure a
  | .error e => logFatal e

/-- `os.ReadFile(path)` as an effect. -/
def readFile (w : World) (path : Bytes) : Run FileRead :=
  ⟨[.readFile path], .ok (w.readFile path)⟩

/-! ## `encoding/hex` and `encoding/base64` -/

/-- One lowercase hexadecimal digit. -/
def hexDigit (n : Nat) : Nat := (str "0123456789abcdef").getD n 0

/-- `hex.EncodeToString`. -/
def hexEncode : Bytes → Bytes
  | [] => []
  | b :: rest => hexDigit (b / 16 % 16) :: hexDigit (b % 16) :: hexEncode rest

/-- The alphabet of `base64.StdEncoding`. -/
def base64Alphabet : Bytes :=
  str "ABCDEFGHIJKLMNOPQRSTUVWXYZabcdefghijklmnopqrstuvwxyz0123456789+/"

/-- The character of a 6-bit value. -/
def base64Char (n : Nat) : Nat := base64Alphabet.getD (n % 64) 0

/-- `base64.StdEncoding.EncodeToString`: three bytes to four characters, the
last group padded with `=`. -/
def base64Encode : Bytes → Bytes
  | [] => []
  | [a] => [base64Char (a / 4), base64Char (a % 4 * 16), 61, 61]
  | [a, b] =>
    [base64Char (a / 4), base64Char (a % 4 * 16 + b / 16), base64Char (b % 16 * 4), 61]
  | a :: b :: c :: rest =>
    base64Char (a / 4) :: base64Char (a % 4 * 16 + b / 16) ::
      base64Char (b % 16 * 4 + c / 64) :: base64Char (c % 64) :: base64Encode rest

/-! ## `main.go`: `hasher` and `encrypter` -/

/-- `hasher` (main.go:166-171). -/
def hasher (w : World) (pgprecipients : Bytes) : Bytes :=
  hexEncode (w.md5 pgprecipients)

/-- The name of a key-store file: `"/keys/" + hash + extension`. -/
def keyFile (hash extension : Bytes) : Bytes := str "/keys/" ++ hash ++ extension

/-- `encrypter` (main.go:173-194). -/
def encrypter (w : World) (pgpdata body : Bytes) : Run Bytes := do
  let sender := hasher w (w.getenv (str "SENDMAIL_SMART_LOGIN"))
  let privkey ← readFile w (keyFile sender (str ".privpgp"))
  if privkey.isNotExist then do
    emit (.print (str "no /keys/" ++ sender ++ str ".privpgp found, skipping signing\r\n"))
    emit (.encryptArmored pgpdata body)
    let armor ← orFatal (w.encryptMessageArmored pgpdata body)
    emit (.logDebug armor)
    pure armor
  else do
    emit (.print (str "/keys/" ++ sender ++ str ".privpgp found, signing message\r\n"))
    let secret := w.getenv (str "SENDMAIL_SECRET")
    emit (.encryptSignArmored pgpdata privkey.content secret body)
    let armor ← orFatal (w.encryptSignMessageArmored pgpdata privkey.content secret body)
    emit (.logDebug armor)
    pure armor

/-! ## `util.go`: `GetDumbMessage` -/

/-- The text `GetDumbMessage` writes into its buffer when the subject is the
marker `...` (util.go:32-49). The first `WriteString` is a raw (backquoted)
literal, in which `\r\n` is the four characters backslash, `r`, backslash,
`n`. -/
def multipartText (sender : Bytes) (recipients : List Bytes) (body : Bytes) : Bytes :=
  str "Content-Type: multipart/encrypted; boundary=\"ca4\"; protocol=\"application/pgp-encrypted\"\\r\\n"
    ++ (str "From: " ++ sender ++ str "\r\n")
    ++ (str "To: " ++ stringsJoin (str ",") recipients ++ str "\r\n")
    ++ str "Subject: ...\r\n"
    ++ str "\r\n"
    ++ str "--ca4\r\n"
    ++ str "content-type: application/pgp-encrypted\r\n"
    ++ str "\r\n"
    ++ str "Version: 1\r\n"
    ++ str "\r\n"
    ++ str "--ca4\r\n"
    ++ str "content-type: application/octet-stream\r\n"
    ++ str "\r\n"
    ++ body
    ++ str "\r\n"
    ++ str "\r\n"
    ++ str "--ca4--\r\n"

/-- The text `GetDumbMessage` writes into its buffer for any other subject
(util.go:54-61). -/
def plainText (sender : Bytes) (recipients : List Bytes) (body : Bytes) : Bytes :=
  (if sender ≠ [] then str "From: " ++ sender ++ str "\r\n" else [])
    ++ (str "To: " ++ stringsJoin (str ",") recipients ++ str "\r\n")
    ++ str "\r\n"
    ++ body
    ++ str "\r\n"

/-- `GetDumbMessage` (util.go:25-63). -/
def GetDumbMessage (w : World) (sender : Bytes) (recipients : List Bytes) (subject body : Bytes) :
    Run (Except GoError Message) :=
  if recipients.length = 0 then
    pure (.error (str "empty recipients list"))
  else if subject = str "..." then do
    emit (.print (str "... found, switching to multipart\r\n"))
    pure (w.readMessage (multipartText sender recipients body))
  else
    pure (w.readMessage (plainText sender recipients body))

/-! ## `sendmail.go`: `NewEnvelope` -/

/-- Go `h[key]` on a `mail.Header`: the values of the name, nil when absent. -/
def headerValues (h : Header) (key : Bytes) : List Bytes :=
  match h with
  | [] => []
  | (k, v) :: rest => if k = key then v else headerValues rest key

/-- Go `h[key] = values`. -/
def headerSet (h : Header) (key : Bytes) (values : List Bytes) : Header :=
  (key, values) :: h

/-- `Header.Get(key)` of `net/mail` for a name in canonical form: the first
value of the name, or the empty string. -/
def headerGet (h : Header) (key : Bytes) : Bytes :=
  (headerValues h key).headD []

/-- `Header.AddressList(key)` of `net/mail`: `ErrHeaderNotPresent` for an
empty value, else the parsed list. -/
def headerAddressList (w : World) (h : Header) (key : Bytes) : Except GoError (List Address) :=
  let hdr := headerGet h key
  if hdr = [] then .error (str "mail: header not in message") else w.parseAddressList hdr

/-- The sender defaulting of `NewEnvelope` (sendmail.go:45-59): the header
after it. -/
def senderHeader (w : World) (config : Config) (header : Header) : Header :=
  if config.Sender ≠ [] then
    headerSet header (str "From") [config.Sender]
  else
    if headerGet header (str "From") = [] then
      match w.currentUser with
      | .ok username =>
        match w.hostname with
        | .ok hostname => headerSet header (str "From") [username ++ str "@" ++ hostname]
        | .error _ => header
      | .error _ => header
    else header

/-- The subject step of `NewEnvelope` (sendmail.go:61-63): the header after
it. -/
def subjectHeader (config : Config) (header : Header) : Header :=
  if config.Subject ≠ [] then
    headerSet header (str "Subject") [str "=?UTF-8?B?" ++ base64Encode config.Subject]
  else header

/-- The recipient resolution of `NewEnvelope` (sendmail.go:65-85). -/
def resolveRecipients (w : World) (config : Config) (header : Header) :
    Except GoError (List Address) :=
  if config.Recipients.length > 0 then
    match w.parseAddressList (stringsJoin (str ",") config.Recipients) with
    | .ok recipient => .ok recipient
    | .error _ => .ok []
  else
    match headerAddressList w header (str "To") with
    | .error err => .error err
    | .ok toList =>
      let rcpt := fun (field : Bytes) =>
        match headerAddressList w header field with
        | .ok recipient => recipient
        | .error _ => []
      .ok (toList ++ rcpt (str "Cc") ++ rcpt (str "Bcc"))

/-- The part of `NewEnvelope` after a message has been obtained
(sendmail.go:45-91). -/
def buildEnvelope (w : World) (config : Config) (msg : Message) : Except GoError Envelope :=
  let header := subjectHeader config (senderHeader w config msg.Header)
  match resolveRecipients w config header with
  | .error err => .error err
  | .ok recipientsList =>
    if recipientsList.length = 0 then .error (str "No recipients listed")
    else .ok ⟨⟨header, msg.Body⟩, recipientsList⟩

/-- `NewEnvelope` (sendmail.go:34-92). -/
def NewEnvelope (w : World) (config : Config) : Run (Except GoError Envelope) := do
  let parsed ←
    match w.readMessage config.Body with
    | .ok msg => pure (Except.ok msg)
    | .error err =>
      if config.Recipients.length > 0 then
        GetDumbMessage w config.Sender config.Recipients (w.dumbSubject config) config.Body
      else pure (Except.error err)
  match parsed with
  | .error err => pure (.error err)
  | .ok msg => pure (buildEnvelope w config msg)

/-! ## `main.go`: the command-submission path -/

/-- The flags and globals of `main.go` that the pipeline reads
(main.go:40-52). -/
structure Flags where
  senderDomains : List Bytes
  subject : Bytes
  verbose : Bool

/-- `getLogFields` (main.go:196-204). -/
def getLogFields (verbose : Bool) (fields : List (Bytes × Bytes)) : List (Bytes × Bytes) :=
  if verbose then fields else []

/-- The encryption decision of the command path (main.go:105-130): the
subject and the body after it. `body` is the value of the variable at
main.go:104, after standard input has been read. -/
def mainSelect (w : World) (f : Flags) (args : List Bytes) (body : Bytes) :
    Run (Bytes × Bytes) := do
  if stringsCount atSign (stringsJoin [] args) > 1 then
    emit (.logDebug (str "Multiple Recipients detected"))
    emit (.logDebug (stringsJoin [] args))
  let pgprecipients ← firstOf args
  let stringhash := hasher w pgprecipients
  let pgpdata ← readFile w (keyFile stringhash (str ".pgp"))
  if pgpdata.isNotExist then do
    emit (.print (str "no /keys/" ++ stringhash ++ str ".pgp found, skipping encryption"))
    pure (f.subject, body)
  else do
    let subject := str "..."
    let configdata ← readFile w (keyFile stringhash (str ".config"))
    if configdata.isNotExist then do
      emit (.print (str "Config file /keys/" ++ stringhash ++
        str ".config not found, encrypting everything\r\n"))
      let body ← encrypter w pgpdata.content body
      pure (subject, body)
    else if stringsContains configdata.content subject then do
      let body ← encrypter w pgpdata.content body
      emit (.print (str "Subject found, encrypting\r\n"))
      pure (subject, body)
    else pure (subject, body)

/-- The sender-domain check of the command path (main.go:147-150). -/
def checkSenderDomain (senderDomains : List Bytes) (envelope : Envelope) : Run Unit := do
  let sender ← firstOf (headerValues envelope.Message.Header (str "From"))
  let senderDomain := GetDomainFromAddress sender
  if unauthorized senderDomains senderDomain then
    logFatal (str "Attempt to unauthorized send with domain " ++ senderDomain)
  else pure ()

/-- The drain loop of the command path (main.go:153-162). -/
def drainMain (verbose : Bool) : List Result → Run Unit
  | [] => pure ()
  | result :: rest =>
    if result.Level > WarnLevel then do
      emit (.logInfo (getLogFields verbose result.Fields) result.Message)
      drainMain verbose rest
    else if result.Level = WarnLevel then do
      emit (.logWarn (getLogFields verbose result.Fields) result.Error)
      drainMain verbose rest
    else if result.Level < WarnLevel then
      logFatal (errText result.Error)
    else drainMain verbose rest

/-- The rest of the command path (main.go:132-162), from the subject and
body the decision left. -/
def mainDeliver (w : World) (f : Flags) (args : List Bytes) (subject body : Bytes) :
    Run Unit := do
  if body.length = 0 then
    logFatal (str "Empty message body")
  else do
    let config : Config :=
      ⟨w.getenv (str "SENDMAIL_SMART_LOGIN"), args, subject, body⟩
    emit (.newEnvelope config)
    let built ← NewEnvelope w config
    let envelope ← orFatal built
    checkSenderDomain f.senderDomains envelope
    emit (.send envelope)
    drainMain f.verbose (w.sendLikeMTA envelope)

/-- The command-submission path of `main` (main.go:105-162). -/
def mainSubmit (w : World) (f : Flags) (args : List Bytes) (body : Bytes) : Run Unit := do
  let selected ← mainSelect w f args body
  mainDeliver w f args selected.1 selected.2

/-! ## `smtpsrv.go`: the SMTP session -/

/-- `Session` (smtpsrv.go:26-29). -/
structure Session where
  From : Bytes
  To : List Bytes
  deriving DecidableEq, Repr

/-- `Session.Mail` (smtpsrv.go:37-45): the session after the call and the
error returned. -/
def Session.Mail (senderDomains : List Bytes) (s : Session) (sender : Bytes) :
    Run (Session × Option GoError) :=
  let senderDomain := GetDomainFromAddress sender
  if unauthorized senderDomains senderDomain then do
    emit (.logError (str "Attempt to unauthorized send with domain " ++ senderDomain))
    pure (s, some (str "unauthorized sender domain " ++ senderDomain))
  else
    pure ({ s with From := sender }, none)

/-- `Session.Rcpt` (smtpsrv.go:48-51). -/
def Session.Rcpt (s : Session) (rcpt : Bytes) : Session × Option GoError :=
  ({ s with To := stringsSplit 44 rcpt }, none)

/-- The encryption decision of `Session.Data` (smtpsrv.go:55-96): the
subject global and the body after it. `r` is the content of the reader;
after `ioutil.ReadAll(r)` the reader is at its end, so `parsemail.Parse(r)`
is given what is left of it, nothing. -/
def Session.select (w : World) (f : Flags) (s : Session) (r : Bytes) :
    Run (Bytes × Bytes) := do
  let body := r
  if stringsCount atSign (stringsJoin [] s.To) > 1 then
    logFatal (str "Multiple Recipients detected")
  else do
    let pgprecipients ← firstOf s.To
    let stringhash := hasher w pgprecipients
    let email ←
      match w.parseMail [] with
      | .ok email => pure email
      | .error _ => logFatal (str "ohoh")
    emit (.print (email.1 ++ str "\n"))
    emit (.print (email.2 ++ str "\n"))
    let pgpdata ← readFile w (keyFile stringhash (str ".pgp"))
    if pgpdata.isNotExist then do
      emit (.logDebug (str "no /keys/" ++ stringhash ++ str ".pgp found, skipping encryption"))
      pure (f.subject, body)
    else do
      let subject := str "..."
      let configdata ← readFile w (keyFile stringhash (str ".config"))
      if configdata.isNotExist then do
        emit (.logDebug (str "Config file /keys/" ++ stringhash ++
          str ".config not found, encrypting everything"))
        let body ← encrypter w pgpdata.content body
        pure (subject, body)
      else if stringsContains configdata.content email.1 then do
        let corepgp ← encrypter w pgpdata.content body
        let body ← encrypter w pgpdata.content corepgp
        pure (subject, body)
      else pure (subject, body)

/-- The drain loop of `Session.Data` (smtpsrv.go:109-120): the error
returned. -/
def drainData (verbose : Bool) : List Result → Run (Option GoError)
  | [] => pure none
  | result :: rest =>
    if result.Level > WarnLevel then do
      emit (.logInfo (getLogFields verbose result.Fields) result.Message)
      drainData verbose rest
    else if result.Level = WarnLevel then do
      emit (.logWarn (getLogFields verbose result.Fields) result.Error)
      drainData verbose rest
    else if result.Level < WarnLevel then do
      emit (.logWarn (getLogFields verbose result.Fields) result.Error)
      pure result.Error
    else drainData verbose rest

/-- The rest of `Session.Data` (smtpsrv.go:98-120): the error returned. -/
def Session.deliver (w : World) (f : Flags) (s : Session) (subject body : Bytes) :
    Run (Option GoError) := do
  let config : Config := ⟨s.From, s.To, subject, body⟩
  emit (.newEnvelope config)
  let built ← NewEnvelope w config
  match built with
  | .error err => pure (some err)
  | .ok envelope =>
    emit (.send envelope)
    emit (.send envelope)
    drainData f.verbose (w.sendLikeMTA envelope)

/-- `Session.Data` (smtpsrv.go:54-121): the subject global after the call
and the error returned. -/
def Session.Data (w : World) (f : Flags) (s : Session) (r : Bytes) :
    Run (Bytes × Option GoError) := do
  let selected ← Session.select w f s r
  let err ← Session.deliver w f s selected.1 selected.2
  pure (selected.1, err)

/-- One SMTP transaction as the server library drives the session: `MAIL`,
and only after `Session.Mail` returned nil, `RCPT` and `DATA` ("a sender is
declared before recipients; recipients are declared before body transfer").
The value is the error the transaction ends with. -/
def smtpTransaction (w : World) (f : Flags) (s : Session) (sender rcpt r : Bytes) :
    Run (Option GoError) := do
  let afterMail ← Session.Mail f.senderDomains s sender
  match afterMail.2 with
  | some err => pure (some err)
  | none =>
    let afterRcpt := Session.Rcpt afterMail.1 rcpt
    let afterData ← Session.Data w f afterRcpt.1 r
    pure afterData.2

/-! ## Observations on traces, and the statements of the specification -/

/-- The configurations handed to `NewEnvelope` during a run, in order. -/
def handed : List Effect → List Config
  | [] => []
  | .newEnvelope config :: rest => config :: handed rest
  | _ :: rest => handed rest

/-- The key-store paths read during a run, in order. -/
def keyReads : List Effect → List Bytes
  | [] => []
  | .readFile path :: rest => path :: keyReads rest
  | _ :: rest => keyReads rest

/-- The envelopes sent during a run (each send produces a sequence of
`Result`), in order. -/
def sends : List Effect → List Envelope
  | [] => []
  | .send envelope :: rest => envelope :: sends rest
  | _ :: rest => sends rest

/-- The calls of the encryption library during a run: the plaintext of each. -/
def encrypted : List Effect → List Bytes
  | [] => []
  | .encryptArmored _ body :: rest => body :: encrypted rest
  | .encryptSignArmored _ _ _ body :: rest => body :: encrypted rest
  | _ :: rest => encrypted rest

/-- The log entry the drain loops write for a result that does not end the
loop: `Info` above `WarnLevel`, `Warn` otherwise. -/
def logOf (verbose : Bool) (result : Result) : Effect :=
  if result.Level > WarnLevel then .logInfo (getLogFields verbose result.Fields) result.Message
  else .logWarn (getLogFields verbose result.Fields) result.Error

/-- The path of a key-store file of an address: `/keys/<hash><extension>`. -/
def keyPath (w : World) (address extension : Bytes) : Bytes :=
  keyFile (hasher w address) extension

/-- The MIME encoded-word of a subject as the specification describes it:
`=?UTF-8?B?`, the base64 text, and the terminator `?=`. -/
def encodedWord (subject : Bytes) : Bytes :=
  str "=?UTF-8?B?" ++ base64Encode subject ++ str "?="

/-- The message text the specification describes for the marker subject: four
header lines each ended by CRLF, a blank line, the two parts and the closing
delimiter. -/
def describedMultipartText (sender : Bytes) (recipients : List Bytes) (body : Bytes) : Bytes :=
  str "Content-Type: multipart/encrypted; boundary=\"ca4\"; protocol=\"application/pgp-encrypted\"\r\n"
    ++ (str "From: " ++ sender ++ str "\r\n")
    ++ (str "To: " ++ stringsJoin (str ",") recipients ++ str "\r\n")
    ++ str "Subject: ...\r\n"
    ++ str "\r\n"
    ++ str "--ca4\r\n"
    ++ str "content-type: application/pgp-encrypted\r\n"
    ++ str "\r\n"
    ++ str "Version: 1\r\n"
    ++ str "\r\n"
    ++ str "--ca4\r\n"
    ++ str "content-type: application/octet-stream\r\n"
    ++ str "\r\n"
    ++ body
    ++ str "\r\n"
    ++ str "\r\n"
    ++ str "--ca4--\r\n"

/-- The header section of a message text and what follows it: the lines
ended by CRLF up to the first empty line, and the text after that line.
`cur` holds the bytes of the line being read, last byte first. -/
def splitHeaderBody : Bytes → Bytes → List Bytes × Bytes
  | [], cur => (if cur = [] then [] else [cur.reverse], [])
  | c :: rest, cur =>
    if c = 10 ∧ cur.head? = some 13 then
      if cur.drop 1 = [] then ([], rest)
      else ((cur.drop 1).reverse :: (splitHeaderBody rest []).1, (splitHeaderBody rest []).2)
    else splitHeaderBody rest (c :: cur)

/-- The header lines of a message text. -/
def headerLines (text : Bytes) : List Bytes := (splitHeaderBody text []).1

/-! ## A concrete environment for concrete runs -/

/-- The recipient of the concrete runs. -/
def bob : Bytes := str "bob@example.com"

/-- The sender of the concrete runs. -/
def alice : Bytes := str "alice@other.com"

/-- The MD5 digests of `bob` and `alice` (any other input is given sixteen
zero bytes). -/
def sampleMd5 (b : Bytes) : Bytes :=
  if b = bob then [75, 155, 184, 6, 32, 240, 62, 179, 113, 158, 10, 6, 28, 20, 40, 61]
  else if b = alice then [99, 199, 58, 205, 233, 0, 164, 120, 132, 107, 66, 65, 169, 250, 244, 224]
  else List.replicate 16 0

/-- A stand-in for the armored output of the encryption library: the armor
lines around the base64 text of the input. -/
def sampleArmor (body : Bytes) : Bytes :=
  str "-----BEGIN PGP MESSAGE-----\r\n\r\n" ++ base64Encode body ++
    str "\r\n-----END PGP MESSAGE-----"

/-- One header line `Name: value` as a name and a value. -/
def sampleHeaderLine (line : Bytes) : Option (Bytes × Bytes) :=
  if 58 ∈ line then
    some (line.takeWhile (fun c => c != 58),
      ((line.dropWhile (fun c => c != 58)).drop 1).dropWhile (fun c => c == 32))
  else none

/-- The header of a list of header lines, none when a line has no colon. -/
def sampleHeader : List Bytes → Option Header
  | [] => some []
  | line :: rest =>
    match sampleHeaderLine line, sampleHeader rest with
    | some kv, some h => some ((kv.1, [kv.2]) :: h)
    | _, _ => none

/-- A simplified `mail.ReadMessage`: header lines ended by CRLF up to an empty
line, then the body; an error when a header line has no colon. -/
def sampleReadMessage (text : Bytes) : Except GoError Message :=
  match sampleHeader (splitHeaderBody text []).1 with
  | some h => .ok ⟨h, (splitHeaderBody text []).2⟩
  | none => .error (str "malformed MIME header line")

/-- A key store: the files of the given table, nothing else. -/
def sampleFiles (table : List (Bytes × Bytes)) (path : Bytes) : FileRead :=
  match table with
  | [] => .notExist
  | (p, content) :: rest => if p = path then .data content else sampleFiles rest path

/-- The name of the public-key file of `bob`. -/
def bobKeyFile : Bytes := str "/keys/4b9bb80620f03eb3719e0a061c14283d.pgp"

/-- The name of the policy file of `bob`. -/
def bobPolicyFile : Bytes := str "/keys/4b9bb80620f03eb3719e0a061c14283d.config"

/-- A concrete environment over a key store: the sender identity is `alice`,
addresses are split at commas, the parsed subject of an inbound mail is
`Invoice`, and a send reports one success. -/
def sampleWorld (table : List (Bytes × Bytes)) : World where
  readFile := sampleFiles table
  md5 := sampleMd5
  getenv := fun name => if name = str "SENDMAIL_SMART_LOGIN" then alice else []
  encryptMessageArmored := fun _ body => .ok (sampleArmor body)
  encryptSignMessageArmored := fun _ _ _ body => .ok (sampleArmor body)
  readMessage := sampleReadMessage
  parseAddressList := fun list => .ok ((stringsSplit 44 list).map (fun a => ⟨[], a⟩))
  currentUser := .ok (str "root")
  hostname := .ok (str "localhost")
  parseMail := fun _ => .ok (str "Invoice", [])
  sendLikeMTA := fun _ => [⟨InfoLevel, none, str "Send mail OK", []⟩]
  dumbSubject := fun config => config.Subject

/-- Flags of the concrete runs: the given allow-list, no `-s`, not verbose. -/
def sampleFlags (senderDomains : List Bytes) : Flags := ⟨senderDomains, [], false⟩

/-- The envelope the concrete environment builds from `alice` to `bob` for
the body `hello`, which is not a message and is wrapped by `GetDumbMessage`:
with the given subject header values when a subject is set. -/
def sampleEnvelope (subject : Bytes) : Envelope :=
  ⟨⟨(if subject ≠ [] then [(str "Subject", [str "=?UTF-8?B?" ++ base64Encode subject])] else [])
      ++ [(str "From", [alice]), (str "From", [alice]), (str "To", [bob])],
    str "hello\r\n"⟩, [⟨[], bob⟩]⟩

/-! # Properties -/

/-! ## Traces -/

theorem Run.bind_def {α β : Type} (x : Run α) (f : α → Run β) : x >>= f = Run.andThen x f := rfl

theorem Run.pure_def {α : Type} (a : α) : (pure a : Run α) = Run.ret a := rfl

theorem handed_append (s t : List Effect) : handed (s ++ t) = handed s ++ handed t := by
  induction s with
  | nil => rfl
  | cons e es ih => cases e <;> simp [handed, ih]

theorem keyReads_append (s t : List Effect) : keyReads (s ++ t) = keyReads s ++ keyReads t := by
  induction s with
  | nil => rfl
  | cons e es ih => cases e <;> simp [keyReads, ih]

theorem sends_append (s t : List Effect) : sends (s ++ t) = sends s ++ sends t := by
  induction s with
  | nil => rfl
  | cons e es ih => cases e <;> simp [sends, ih]

theorem encrypted_append (s t : List Effect) :
    encrypted (s ++ t) = encrypted s ++ encrypted t := by
  induction s with
  | nil => rfl
  | cons e es ih => cases e <;> simp [encrypted, ih]

theorem Run.andThen_ok {α β : Type} (x : Run α) (f : α → Run β) (a : α)
    (h : x.result = .ok a) :
    Run.andThen x f = ⟨x.trace ++ (f a).trace, (f a).result⟩ := by
  simp [Run.andThen, h]

theorem Run.andThen_error {α β : Type} (x : Run α) (f : α → Run β) (e : Stop)
    (h : x.result = .error e) :
    Run.andThen x f = ⟨x.trace, .error e⟩ := by
  simp [Run.andThen, h]

/-! ## `encrypter` -/

theorem encrypter_observed (w : World) (pk body : Bytes) :
    handed (encrypter w pk body).trace = [] ∧ sends (encrypter w pk body).trace = [] ∧
    encrypted (encrypter w pk body).trace = [body] ∧
    keyReads (encrypter w pk body).trace =
      [keyPath w (w.getenv (str "SENDMAIL_SMART_LOGIN")) (str ".privpgp")] := by
  unfold encrypter
  cases hp : (w.readFile (keyFile (hasher w (w.getenv (str "SENDMAIL_SMART_LOGIN")))
      (str ".privpgp"))).isNotExist
  · cases he : w.encryptSignMessageArmored pk
        (w.readFile (keyFile (hasher w (w.getenv (str "SENDMAIL_SMART_LOGIN")))
          (str ".privpgp"))).content (w.getenv (str "SENDMAIL_SECRET")) body <;>
      simp [Run.bind_def, Run.pure_def, Run.andThen, Run.ret, emit, readFile, orFatal, logFatal,
        hp, he, handed, sends, encrypted, keyReads, keyPath]
  · cases he : w.encryptMessageArmored pk body <;>
      simp [Run.bind_def, Run.pure_def, Run.andThen, Run.ret, emit, readFile, orFatal, logFatal,
        hp, he, handed, sends, encrypted, keyReads, keyPath]

/-! ## `NewEnvelope` -/

theorem GetDumbMessage_trace (w : World) (sender : Bytes) (recipients : List Bytes)
    (subject body : Bytes) :
    handed (GetDumbMessage w sender recipients subject body).trace = [] ∧
    sends (GetDumbMessage w sender recipients subject body).trace = [] ∧
    keyReads (GetDumbMessage w sender recipients subject body).trace = [] ∧
    encrypted (GetDumbMessage w sender recipients subject body).trace = [] ∧
    ∃ v, (GetDumbMessage w sender recipients subject body).result = .ok v := by
  unfold GetDumbMessage
  split
  · simp [Run.pure_def, Run.ret, handed, sends, keyReads, encrypted]
  · split <;>
      simp [Run.bind_def, Run.pure_def, Run.andThen, Run.ret, emit, handed, sends, keyReads,
        encrypted]

theorem NewEnvelope_observed (w : World) (config : Config) :
    handed (NewEnvelope w config).trace = [] ∧ sends (NewEnvelope w config).trace = [] ∧
    keyReads (NewEnvelope w config).trace = [] ∧ encrypted (NewEnvelope w config).trace = [] ∧
    ∃ v, (NewEnvelope w config).result = .ok v := by
  obtain ⟨h1, h2, h3, h4, v, hv⟩ := GetDumbMessage_trace w config.Sender config.Recipients
    (w.dumbSubject config) config.Body
  unfold NewEnvelope
  cases hr : w.readMessage config.Body with
  | ok msg =>
    simp [Run.bind_def, Run.pure_def, Run.andThen, Run.ret, handed, sends, keyReads, encrypted]
  | error err =>
    by_cases hlen : config.Recipients.length > 0
    · cases v with
      | ok msg =>
        simp [Run.bind_def, Run.pure_def, Run.andThen, Run.ret, hlen, hv, h1, h2, h3, h4, handed,
          sends, keyReads, encrypted]
      | error e =>
        simp [Run.bind_def, Run.pure_def, Run.andThen, Run.ret, hlen, hv, h1, h2, h3, h4, handed,
          sends, keyReads, encrypted]
    · simp [Run.bind_def, Run.pure_def, Run.andThen, Run.ret, hlen, handed, sends, keyReads,
        encrypted]

/-! ## The drain loops -/

theorem drainMain_observed (verbose : Bool) (rs : List Result) :
    handed (drainMain verbose rs).trace = [] ∧ sends (drainMain verbose rs).trace = [] ∧
    keyReads (drainMain verbose rs).trace = [] ∧ encrypted (drainMain verbose rs).trace = [] := by
  induction rs with
  | nil => simp [drainMain, Run.pure_def, Run.ret, handed, sends, keyReads, encrypted]
  | cons r rest ih =>
    obtain ⟨i1, i2, i3, i4⟩ := ih
    unfold drainMain
    split
    · simp [Run.bind_def, Run.andThen, emit, handed, sends, keyReads, encrypted, i1, i2, i3, i4]
    · split
      · simp [Run.bind_def, Run.andThen, emit, handed, sends, keyReads, encrypted, i1, i2, i3, i4]
      · split
        · simp [logFatal, handed, sends, keyReads, encrypted]
        · exact ⟨i1, i2, i3, i4⟩

theorem drainData_observed (verbose : Bool) (rs : List Result) :
    handed (drainData verbose rs).trace = [] ∧ sends (drainData verbose rs).trace = [] ∧
    keyReads (drainData verbose rs).trace = [] ∧ encrypted (drainData verbose rs).trace = [] := by
  induction rs with
  | nil => simp [drainData, Run.pure_def, Run.ret, handed, sends, keyReads, encrypted]
  | cons r rest ih =>
    obtain ⟨i1, i2, i3, i4⟩ := ih
    unfold drainData
    split
    · simp [Run.bind_def, Run.andThen, emit, handed, sends, keyReads, encrypted, i1, i2, i3, i4]
    · split
      · simp [Run.bind_def, Run.andThen, emit, handed, sends, keyReads, encrypted, i1, i2, i3, i4]
      · split
        · simp [Run.bind_def, Run.pure_def, Run.ret, Run.andThen, emit, handed, sends, keyReads,
            encrypted]
        · exact ⟨i1, i2, i3, i4⟩

/-! ## The command path after the decision -/

theorem checkSenderDomain_trace (senderDomains : List Bytes) (envelope : Envelope) :
    (checkSenderDomain senderDomains envelope).trace = [] := by
  unfold checkSenderDomain firstOf
  cases headerValues envelope.Message.Header (str "From") with
  | nil => simp [Run.bind_def, Run.andThen, goPanic]
  | cons x xs =>
    cases hu : unauthorized senderDomains (GetDomainFromAddress x) <;>
      simp [Run.bind_def, Run.pure_def, Run.ret, Run.andThen, logFatal, hu]

theorem mainDeliver_empty (w : World) (f : Flags) (args : List Bytes) (subject : Bytes) :
    mainDeliver w f args subject [] = ⟨[], .error (.fatal (str "Empty message body"))⟩ := by
  simp [mainDeliver, logFatal]

theorem mainDeliver_observed (w : World) (f : Flags) (args : List Bytes) (subject body : Bytes)
    (h : body ≠ []) :
    handed (mainDeliver w f args subject body).trace =
      [⟨w.getenv (str "SENDMAIL_SMART_LOGIN"), args, subject, body⟩] ∧
    keyReads (mainDeliver w f args subject body).trace = [] ∧
    encrypted (mainDeliver w f args subject body).trace = [] := by
  obtain ⟨n1, n2, n3, n4, v, hv⟩ := NewEnvelope_observed w
    ⟨w.getenv (str "SENDMAIL_SMART_LOGIN"), args, subject, body⟩
  have hl : ¬ body.length = 0 := by simpa using h
  unfold mainDeliver
  simp only [hl, if_false, Run.bind_def]
  cases v with
  | error e =>
    simp [Run.andThen, emit, hv, orFatal, logFatal, handed, keyReads, encrypted, handed_append,
      keyReads_append, encrypted_append, n1, n3, n4]
  | ok envelope =>
    have ct := checkSenderDomain_trace f.senderDomains envelope
    obtain ⟨d1, d2, d3, d4⟩ := drainMain_observed f.verbose (w.sendLikeMTA envelope)
    cases hc : (checkSenderDomain f.senderDomains envelope).result <;>
    simp [Run.andThen, emit, hv, orFatal, Run.pure_def, Run.ret, handed, keyReads, encrypted,
      handed_append, keyReads_append, encrypted_append, n1, n3, n4, ct, hc, d1, d3, d4]

/-! ## The encryption decision of the command path -/

theorem mainSelect_nokey (w : World) (f : Flags) (rcpt : Bytes) (more : List Bytes)
    (body : Bytes) (hk : (w.readFile (keyPath w rcpt (str ".pgp"))).isNotExist = true) :
    (mainSelect w f (rcpt :: more) body).result = .ok (f.subject, body) ∧
    handed (mainSelect w f (rcpt :: more) body).trace = [] ∧
    sends (mainSelect w f (rcpt :: more) body).trace = [] ∧
    encrypted (mainSelect w f (rcpt :: more) body).trace = [] ∧
    keyReads (mainSelect w f (rcpt :: more) body).trace = [keyPath w rcpt (str ".pgp")] := by
  simp only [keyPath] at hk
  unfold mainSelect
  split <;>
    simp [Run.bind_def, Run.pure_def, Run.ret, Run.andThen, emit, firstOf, readFile, hk, handed,
      sends, encrypted, keyReads, keyPath]

theorem mainSelect_unchanged (w : World) (f : Flags) (rcpt : Bytes) (more : List Bytes)
    (body : Bytes) (hk : (w.readFile (keyPath w rcpt (str ".pgp"))).isNotExist = false)
    (hc : (w.readFile (keyPath w rcpt (str ".config"))).isNotExist = false)
    (hm : stringsContains (w.readFile (keyPath w rcpt (str ".config"))).content (str "...")
      = false) :
    (mainSelect w f (rcpt :: more) body).result = .ok (str "...", body) ∧
    handed (mainSelect w f (rcpt :: more) body).trace = [] ∧
    sends (mainSelect w f (rcpt :: more) body).trace = [] ∧
    encrypted (mainSelect w f (rcpt :: more) body).trace = [] ∧
    keyReads (mainSelect w f (rcpt :: more) body).trace =
      [keyPath w rcpt (str ".pgp"), keyPath w rcpt (str ".config")] := by
  simp only [keyPath] at hk hc hm
  unfold mainSelect
  split <;>
    simp [Run.bind_def, Run.pure_def, Run.ret, Run.andThen, emit, firstOf, readFile, hk, hc, hm,
      handed, sends, encrypted, keyReads, keyPath]

theorem mainSelect_encrypt (w : World) (f : Flags) (rcpt : Bytes) (more : List Bytes)
    (body : Bytes) (hk : (w.readFile (keyPath w rcpt (str ".pgp"))).isNotExist = false)
    (hc : (w.readFile (keyPath w rcpt (str ".config"))).isNotExist = true ∨
      stringsContains (w.readFile (keyPath w rcpt (str ".config"))).content (str "...") = true) :
    (mainSelect w f (rcpt :: more) body).result =
      (match (encrypter w (w.readFile (keyPath w rcpt (str ".pgp"))).content body).result with
        | .ok c => .ok (str "...", c)
        | .error e => .error e) ∧
    handed (mainSelect w f (rcpt :: more) body).trace = [] ∧
    sends (mainSelect w f (rcpt :: more) body).trace = [] ∧
    encrypted (mainSelect w f (rcpt :: more) body).trace = [body] ∧
    keyReads (mainSelect w f (rcpt :: more) body).trace =
      [keyPath w rcpt (str ".pgp"), keyPath w rcpt (str ".config"),
        keyPath w (w.getenv (str "SENDMAIL_SMART_LOGIN")) (str ".privpgp")] := by
  obtain ⟨e1, e2, e3, e4⟩ :=
    encrypter_observed w (w.readFile (keyPath w rcpt (str ".pgp"))).content body
  simp only [keyPath] at hk hc e1 e2 e3 e4 ⊢
  unfold mainSelect
  simp only [Run.bind_def, Run.pure_def, firstOf, Run.ret, Run.andThen, readFile, emit, hk]
  generalize encrypter w (w.readFile (keyFile (hasher w rcpt) (str ".pgp"))).content body = E
    at e1 e2 e3 e4 ⊢
  obtain ⟨tr, res⟩ := E
  simp only at e1 e2 e3 e4
  cases hcfg : (w.readFile (keyFile (hasher w rcpt) (str ".config"))).isNotExist
  · have hm : stringsContains (w.readFile (keyFile (hasher w rcpt) (str ".config"))).content
        (str "...") = true := by
      rcases hc with hc | hc
      · rw [hcfg] at hc; exact absurd hc (by simp)
      · exact hc
    cases res <;> split <;>
      simp [hm, handed, sends, encrypted, keyReads, handed_append, sends_append,
        encrypted_append, keyReads_append, e1, e2, e3, e4]
  · cases res <;> split <;>
      simp [handed, sends, encrypted, keyReads, handed_append, sends_append,
        encrypted_append, keyReads_append, e1, e2, e3, e4]

/-! ## The command path as a whole -/

theorem mainSubmit_of_select (w : World) (f : Flags) (args : List Bytes) (body : Bytes)
    (selected : Bytes × Bytes) (h : (mainSelect w f args body).result = .ok selected) :
    mainSubmit w f args body =
      ⟨(mainSelect w f args body).trace ++ (mainDeliver w f args selected.1 selected.2).trace,
        (mainDeliver w f args selected.1 selected.2).result⟩ := by
  simp [mainSubmit, Run.bind_def, Run.andThen, h]

theorem mainSubmit_of_select_error (w : World) (f : Flags) (args : List Bytes) (body : Bytes)
    (e : Stop) (h : (mainSelect w f args body).result = .error e) :
    mainSubmit w f args body = ⟨(mainSelect w f args body).trace, .error e⟩ := by
  simp [mainSubmit, Run.bind_def, Run.andThen, h]

theorem mainSubmit_handed (w : World) (f : Flags) (args : List Bytes) (body : Bytes)
    (subject chosen : Bytes) (h : (mainSelect w f args body).result = .ok (subject, chosen))
    (hh : handed (mainSelect w f args body).trace = []) :
    handed (mainSubmit w f args body).trace =
      if chosen = [] then []
      else [⟨w.getenv (str "SENDMAIL_SMART_LOGIN"), args, subject, chosen⟩] := by
  rw [mainSubmit_of_select w f args body _ h]
  simp only [handed_append, hh, List.nil_append]
  by_cases hc : chosen = []
  · subst hc
    simp [mainDeliver_empty, handed]
  · simp [hc, (mainDeliver_observed w f args subject chosen hc).1]

theorem mainSubmit_encrypted (w : World) (f : Flags) (args : List Bytes) (body : Bytes)
    (subject chosen : Bytes) (h : (mainSelect w f args body).result = .ok (subject, chosen)) :
    encrypted (mainSubmit w f args body).trace = encrypted (mainSelect w f args body).trace := by
  rw [mainSubmit_of_select w f args body _ h]
  simp only [encrypted_append]
  by_cases hc : chosen = []
  · subst hc
    simp [mainDeliver_empty, encrypted]
  · simp [(mainDeliver_observed w f args subject chosen hc).2.2]

/-! ## `GetDomainFromAddress` -/

theorem stringsSplit_ne_nil (sep : Nat) (s : Bytes) : stringsSplit sep s ≠ [] := by
  induction s with
  | nil => simp [stringsSplit]
  | cons c cs ih =>
    unfold stringsSplit
    split
    · simp
    · split
      · simp
      · simp

theorem stringsSplit_of_not_mem (sep : Nat) (s : Bytes) (h : sep ∉ s) :
    stringsSplit sep s = [s] := by
  induction s with
  | nil => rfl
  | cons c cs ih =>
    have hc : c ≠ sep := fun e => h (by simp [e])
    have hcs : sep ∉ cs := fun e => h (by simp [e])
    simp [stringsSplit, hc, ih hcs]

theorem stringsSplit_append (sep : Nat) (l d : Bytes) (h : sep ∉ l) :
    stringsSplit sep (l ++ sep :: d) = l :: stringsSplit sep d := by
  induction l with
  | nil => simp [stringsSplit]
  | cons c cs ih =>
    have hc : c ≠ sep := fun e => h (by simp [e])
    have hcs : sep ∉ cs := fun e => h (by simp [e])
    simp [stringsSplit, hc, ih hcs]

theorem stringsSplit_length (sep : Nat) (s : Bytes) :
    (stringsSplit sep s).length = s.count sep + 1 := by
  induction s with
  | nil => simp [stringsSplit]
  | cons c cs ih =>
    unfold stringsSplit
    by_cases hc : c = sep
    · subst hc
      simp [ih]
    · have hne : (c == sep) = false := by simpa using hc
      simp only [hc, if_false]
      cases hs : stringsSplit sep cs with
      | nil => exact absurd hs (stringsSplit_ne_nil sep cs)
      | cons p ps =>
        rw [hs] at ih
        simp [List.count_cons, hne] at ih ⊢
        omega

theorem afterAt_append (l d : Bytes) (h : atSign ∉ l) :
    afterAt (l ++ atSign :: d) = d := by
  induction l with
  | nil => simp [afterAt, List.dropWhile]
  | cons c cs ih =>
    have hc : c ≠ atSign := fun e => h (by simp [e])
    have hcs : atSign ∉ cs := fun e => h (by simp [e])
    have := ih hcs
    have hb : (c != atSign) = true := by simpa using hc
    simp only [afterAt, List.cons_append, List.dropWhile, hb] at this ⊢
    exact this

theorem exists_split_of_count_one (sep : Nat) (a : Bytes) (h : a.count sep = 1) :
    ∃ l d, a = l ++ sep :: d ∧ sep ∉ l ∧ sep ∉ d := by
  induction a with
  | nil => simp at h
  | cons c cs ih =>
    by_cases hc : c = sep
    · subst hc
      refine ⟨[], cs, rfl, by simp, ?_⟩
      simp at h
      exact List.count_eq_zero.mp h
    · have hne : (c == sep) = false := by simpa using hc
      simp [List.count_cons, hne] at h
      obtain ⟨l, d, e, hl, hd⟩ := ih h
      refine ⟨c :: l, d, by simp [e], ?_, hd⟩
      simp [hl, Ne.symm hc]

theorem GetDomainFromAddress_append (l d : Bytes) (hl : atSign ∉ l) (hd : atSign ∉ d) :
    GetDomainFromAddress (l ++ atSign :: d) = d := by
  simp [GetDomainFromAddress, stringsSplit_append _ _ _ hl, stringsSplit_of_not_mem _ _ hd]

theorem GetDomainFromAddress_eq (a : Bytes) :
    GetDomainFromAddress a = if a.count atSign = 1 then afterAt a else [] := by
  by_cases h : a.count atSign = 1
  · obtain ⟨l, d, e, hl, hd⟩ := exists_split_of_count_one _ _ h
    rw [if_pos h, e, GetDomainFromAddress_append l d hl hd, afterAt_append l d hl]
  · rw [if_neg h]
    have hlen : (stringsSplit atSign a).length ≠ 2 := by
      rw [stringsSplit_length]; omega
    simp [GetDomainFromAddress, hlen]

/-- C10: `GetDomainFromAddress a` is the part of `a` after its `@` when `a`
has exactly one `@` and the empty string otherwise; for `l` and `d` without
`@` the domain of `l@d` is `d`. The function is total. -/
theorem GetDomainFromAddress_spec (a l d : Bytes) :
    (GetDomainFromAddress a = if a.count atSign = 1 then afterAt a else []) ∧
    (atSign ∉ l → atSign ∉ d → GetDomainFromAddress (l ++ str "@" ++ d) = d) := by
  refine ⟨GetDomainFromAddress_eq a, fun hl hd => ?_⟩
  have : l ++ str "@" ++ d = l ++ atSign :: d := by
    simp [str, atSign]
  rw [this]
  exact GetDomainFromAddress_append l d hl hd

theorem GetDomainFromAddress_spec_witness :
    GetDomainFromAddress (str "alice" ++ str "@" ++ str "example.com") = str "example.com" :=
  (GetDomainFromAddress_spec (str "alice@example.com") (str "alice") (str "example.com")).2
    (by decide) (by decide)

/-! ## Authorization -/

theorem Contains_iff (d : List Bytes) (s : Bytes) :
    arrayDomains.Contains d s = true ↔ s ∈ d := by
  induction d with
  | nil => simp [arrayDomains.Contains]
  | cons x xs ih =>
    by_cases h : x = s
    · simp [arrayDomains.Contains, h]
    · simp [arrayDomains.Contains, h, ih, Ne.symm h]

theorem unauthorized_eq_false_iff (sd : List Bytes) (x : Bytes) :
    unauthorized sd x = false ↔ sd = [] ∨ x ∈ sd := by
  cases sd with
  | nil => simp [unauthorized]
  | cons a as =>
    simp only [unauthorized, List.length_cons, gt_iff_lt, Nat.zero_lt_succ, decide_True,
      Bool.true_and, Bool.not_eq_false', Contains_iff]
    simp

/-- C1: a sender is authorized exactly when the allow-list is empty or the
domain of the sender is an element of the allow-list (equality of byte
strings). `Session.Mail` returns nil and stores the sender exactly then,
and otherwise returns an error and leaves the session as it was; the
check of the command path passes exactly then, and otherwise ends the
process with the unauthorized-send message. -/
theorem authorized_iff (senderDomains : List Bytes) (sender : Bytes) (s : Session)
    (envelope : Envelope) (more : List Bytes) :
    (unauthorized senderDomains (GetDomainFromAddress sender) = false ↔
      (senderDomains = [] ∨ GetDomainFromAddress sender ∈ senderDomains)) ∧
    ((Session.Mail senderDomains s sender).result = .ok ({ s with From := sender }, none) ↔
      (senderDomains = [] ∨ GetDomainFromAddress sender ∈ senderDomains)) ∧
    (¬ (senderDomains = [] ∨ GetDomainFromAddress sender ∈ senderDomains) →
      (Session.Mail senderDomains s sender).result =
        .ok (s, some (str "unauthorized sender domain " ++ GetDomainFromAddress sender))) ∧
    (headerValues envelope.Message.Header (str "From") = sender :: more →
      ((checkSenderDomain senderDomains envelope).result = .ok () ↔
        (senderDomains = [] ∨ GetDomainFromAddress sender ∈ senderDomains))) ∧
    (headerValues envelope.Message.Header (str "From") = sender :: more →
      ¬ (senderDomains = [] ∨ GetDomainFromAddress sender ∈ senderDomains) →
      (checkSenderDomain senderDomains envelope).result =
        .error (.fatal (str "Attempt to unauthorized send with domain " ++
          GetDomainFromAddress sender))) := by
  have key := unauthorized_eq_false_iff senderDomains (GetDomainFromAddress sender)
  refine ⟨key, ?_, ?_, ?_, ?_⟩
  · rw [← key]
    cases hu : unauthorized senderDomains (GetDomainFromAddress sender) <;>
      simp [Session.Mail, hu, Run.bind_def, Run.pure_def, Run.andThen, Run.ret, emit]
  · intro h
    rw [← key] at h
    have hu : unauthorized senderDomains (GetDomainFromAddress sender) = true := by
      simpa using h
    simp [Session.Mail, hu, Run.bind_def, Run.pure_def, Run.andThen, Run.ret, emit]
  · intro hfrom
    rw [← key]
    cases hu : unauthorized senderDomains (GetDomainFromAddress sender) <;>
      simp [checkSenderDomain, hfrom, firstOf, hu, Run.bind_def, Run.pure_def, Run.andThen,
        Run.ret, logFatal]
  · intro hfrom h
    rw [← key] at h
    have hu : unauthorized senderDomains (GetDomainFromAddress sender) = true := by
      simpa using h
    simp [checkSenderDomain, hfrom, firstOf, hu, Run.bind_def, Run.pure_def, Run.andThen,
      Run.ret, logFatal]

theorem authorized_iff_witness :
    (Session.Mail [str "example.com"] ⟨[], []⟩ alice).result =
      .ok (⟨[], []⟩, some (str "unauthorized sender domain " ++ GetDomainFromAddress alice)) ∧
    ((checkSenderDomain [str "example.com"] (sampleEnvelope [])).result = .ok () ↔
      ([str "example.com"] = [] ∨ GetDomainFromAddress alice ∈ [str "example.com"])) ∧
    (checkSenderDomain [str "example.com"] (sampleEnvelope [])).result =
      .error (.fatal (str "Attempt to unauthorized send with domain " ++
        GetDomainFromAddress alice)) :=
  ⟨(authorized_iff [str "example.com"] alice ⟨[], []⟩ (sampleEnvelope []) []).2.2.1
      (by decide),
    (authorized_iff [str "example.com"] alice ⟨[], []⟩ (sampleEnvelope []) []).2.2.2.1
      (by decide),
    (authorized_iff [str "example.com"] alice ⟨[], []⟩ (sampleEnvelope []) []).2.2.2.2
      (by decide) (by decide)⟩

/-! ## The drain loop of `Session.Data` -/

theorem drainData_all_mild (verbose : Bool) (rs : List Result)
    (h : ∀ x ∈ rs, WarnLevel ≤ x.Level) :
    (drainData verbose rs).result = .ok none ∧
    (drainData verbose rs).trace = rs.map (logOf verbose) := by
  induction rs with
  | nil => exact ⟨rfl, rfl⟩
  | cons r rest ih =>
    have hr : WarnLevel ≤ r.Level := h r (by simp)
    obtain ⟨i1, i2⟩ := ih (fun x hx => h x (by simp [hx]))
    unfold drainData
    by_cases h1 : r.Level > WarnLevel
    · simp [h1, Run.bind_def, Run.andThen, emit, i1, i2, logOf]
    · have h2 : r.Level = WarnLevel := by omega
      simp [h1, h2, Run.bind_def, Run.andThen, emit, i1, i2, logOf]

theorem drainData_first_severe (verbose : Bool) (pre post : List Result) (r : Result)
    (h : ∀ x ∈ pre, WarnLevel ≤ x.Level) (hr : r.Level < WarnLevel) :
    (drainData verbose (pre ++ r :: post)).result = .ok r.Error ∧
    (drainData verbose (pre ++ r :: post)).trace =
      pre.map (logOf verbose) ++ [.logWarn (getLogFields verbose r.Fields) r.Error] := by
  induction pre with
  | nil =>
    have h1 : ¬ r.Level > WarnLevel := by omega
    have h2 : ¬ r.Level = WarnLevel := by omega
    simp [drainData, h1, h2, hr, Run.bind_def, Run.andThen, emit, Run.pure_def, Run.ret]
  | cons p rest ih =>
    have hp : WarnLevel ≤ p.Level := h p (by simp)
    obtain ⟨i1, i2⟩ := ih (fun x hx => h x (by simp [hx]))
    simp only [List.cons_append]
    unfold drainData
    by_cases h1 : p.Level > WarnLevel
    · simp [h1, Run.bind_def, Run.andThen, emit, i1, i2, logOf]
    · have h2 : p.Level = WarnLevel := by omega
      simp [h1, h2, Run.bind_def, Run.andThen, emit, i1, i2, logOf]

theorem exists_first_severe (rs : List Result) (h : ¬ ∀ x ∈ rs, WarnLevel ≤ x.Level) :
    ∃ pre r post, rs = pre ++ r :: post ∧ (∀ x ∈ pre, WarnLevel ≤ x.Level) ∧
      r.Level < WarnLevel := by
  induction rs with
  | nil => simp at h
  | cons a rest ih =>
    by_cases ha : WarnLevel ≤ a.Level
    · have : ¬ ∀ x ∈ rest, WarnLevel ≤ x.Level := by
        intro hall
        apply h
        intro x hx
        rcases List.mem_cons.mp hx with e | e
        · rw [e]; exact ha
        · exact hall x e
      obtain ⟨pre, r, post, e, hpre, hr⟩ := ih this
      refine ⟨a :: pre, r, post, by simp [e], ?_, hr⟩
      intro x hx
      rcases List.mem_cons.mp hx with e | e
      · rw [e]; exact ha
      · exact hpre x e
    · exact ⟨[], a, rest, rfl, by simp, by omega⟩

/-- C2, as amended: the drain loop of `Session.Data` handles the results in
order. Without a result below `WarnLevel` it logs every result and returns
nil. Otherwise it logs the results before the first one below `WarnLevel`,
logs that one, returns its `Error` (nil when that result carries none) and
handles no later result. When every result below `WarnLevel` carries an
error, the loop returns nil exactly when no result is below `WarnLevel`. -/
theorem drainData_spec (verbose : Bool) (rs pre post : List Result) (r : Result) :
    ((∀ x ∈ rs, WarnLevel ≤ x.Level) →
      (drainData verbose rs).result = .ok none ∧
      (drainData verbose rs).trace = rs.map (logOf verbose)) ∧
    ((∀ x ∈ pre, WarnLevel ≤ x.Level) → r.Level < WarnLevel →
      (drainData verbose (pre ++ r :: post)).result = .ok r.Error ∧
      (drainData verbose (pre ++ r :: post)).trace =
        pre.map (logOf verbose) ++ [.logWarn (getLogFields verbose r.Fields) r.Error]) ∧
    ((∀ x ∈ rs, x.Level < WarnLevel → x.Error ≠ none) →
      ((drainData verbose rs).result = .ok none ↔ ∀ x ∈ rs, ¬ x.Level < WarnLevel)) := by
  refine ⟨drainData_all_mild verbose rs, drainData_first_severe verbose pre post r, ?_⟩
  intro herr
  constructor
  · intro hnil
    by_contra hex
    have hex' : ¬ ∀ x ∈ rs, WarnLevel ≤ x.Level := by
      intro hall
      exact hex (fun x hx => by have := hall x hx; omega)
    obtain ⟨p, q, t, e, hp, hq⟩ := exists_first_severe rs hex'
    have hres := (drainData_first_severe verbose p t q hp hq).1
    rw [← e, hnil] at hres
    have hq0 : q.Error = none := by
      injection hres with h'
      exact h'.symm
    exact herr q (by rw [e]; simp) hq hq0
  · intro hall
    exact (drainData_all_mild verbose rs (fun x hx => by have := hall x hx; omega)).1

theorem drainData_spec_witness :
    (drainData false ([⟨InfoLevel, none, str "Send mail OK", []⟩] ++
      ⟨FatalLevel, some (str "all sends failed"), [], []⟩ ::
        [⟨InfoLevel, none, str "late", []⟩])).result = .ok (some (str "all sends failed")) ∧
    (drainData false ([⟨InfoLevel, none, str "Send mail OK", []⟩] ++
      ⟨FatalLevel, some (str "all sends failed"), [], []⟩ ::
        [⟨InfoLevel, none, str "late", []⟩])).trace =
      [⟨InfoLevel, none, str "Send mail OK", []⟩].map (logOf false) ++
        [.logWarn (getLogFields false []) (some (str "all sends failed"))] :=
  (drainData_spec false [] [⟨InfoLevel, none, str "Send mail OK", []⟩]
    [⟨InfoLevel, none, str "late", []⟩]
    ⟨FatalLevel, some (str "all sends failed"), [], []⟩).2.1 (by decide) (by decide)

/-- C2, the statement as written fails: a single result below `WarnLevel`
that carries no error makes the loop return nil although a result is below
`WarnLevel`. -/
theorem drainData_nil_error_counterexample :
    ¬ ((drainData false [⟨FatalLevel, none, [], []⟩]).result = .ok none ↔
      ∀ x ∈ [(⟨FatalLevel, none, [], []⟩ : Result)], ¬ x.Level < WarnLevel) := by
  intro h
  have h1 : (drainData false [⟨FatalLevel, none, [], []⟩]).result = .ok none := rfl
  have h2 := h.mp h1 ⟨FatalLevel, none, [], []⟩ (by simp)
  exact h2 (by decide)

/-! ## The body handed to `NewEnvelope` -/

/-- C3: in the command path, with `rcpt` the first recipient: when no
public key exists for it, the configuration handed to `NewEnvelope` carries
the input body and the encryption library is not called; the same holds
when a public key and a policy document exist and the policy does not
contain `...`; when a public key exists and the policy document is absent
or contains `...`, `encrypter` is run once on the input body and the
configuration carries its result. (`NewEnvelope` is reached when that body
is not empty.) -/
theorem mainSubmit_body (w : World) (f : Flags) (rcpt : Bytes) (more : List Bytes)
    (body : Bytes) :
    ((w.readFile (keyPath w rcpt (str ".pgp"))).isNotExist = true →
      handed (mainSubmit w f (rcpt :: more) body).trace =
        (if body = [] then []
          else [⟨w.getenv (str "SENDMAIL_SMART_LOGIN"), rcpt :: more, f.subject, body⟩]) ∧
      encrypted (mainSubmit w f (rcpt :: more) body).trace = []) ∧
    ((w.readFile (keyPath w rcpt (str ".pgp"))).isNotExist = false →
      (w.readFile (keyPath w rcpt (str ".config"))).isNotExist = false →
      stringsContains (w.readFile (keyPath w rcpt (str ".config"))).content (str "...") = false →
      handed (mainSubmit w f (rcpt :: more) body).trace =
        (if body = [] then []
          else [⟨w.getenv (str "SENDMAIL_SMART_LOGIN"), rcpt :: more, str "...", body⟩]) ∧
      encrypted (mainSubmit w f (rcpt :: more) body).trace = []) ∧
    ((w.readFile (keyPath w rcpt (str ".pgp"))).isNotExist = false →
      ((w.readFile (keyPath w rcpt (str ".config"))).isNotExist = true ∨
        stringsContains (w.readFile (keyPath w rcpt (str ".config"))).content (str "...")
          = true) →
      ∀ c, (encrypter w (w.readFile (keyPath w rcpt (str ".pgp"))).content body).result = .ok c →
      handed (mainSubmit w f (rcpt :: more) body).trace =
        (if c = [] then []
          else [⟨w.getenv (str "SENDMAIL_SMART_LOGIN"), rcpt :: more, str "...", c⟩]) ∧
      encrypted (mainSubmit w f (rcpt :: more) body).trace = [body]) := by
  refine ⟨fun hk => ?_, fun hk hc hm => ?_, fun hk hc c he => ?_⟩
  · obtain ⟨r, h1, _, h3, _⟩ := mainSelect_nokey w f rcpt more body hk
    exact ⟨mainSubmit_handed w f _ body _ _ r h1, by
      rw [mainSubmit_encrypted w f _ body _ _ r, h3]⟩
  · obtain ⟨r, h1, _, h3, _⟩ := mainSelect_unchanged w f rcpt more body hk hc hm
    exact ⟨mainSubmit_handed w f _ body _ _ r h1, by
      rw [mainSubmit_encrypted w f _ body _ _ r, h3]⟩
  · obtain ⟨r, h1, _, h3, _⟩ := mainSelect_encrypt w f rcpt more body hk hc
    rw [he] at r
    exact ⟨mainSubmit_handed w f _ body _ _ r h1, by
      rw [mainSubmit_encrypted w f _ body _ _ r, h3]⟩

theorem mainSubmit_body_witness :
    handed (mainSubmit (sampleWorld [(bobKeyFile, str "KEY")]) (sampleFlags []) (bob :: [])
        (str "hello")).trace =
      (if sampleArmor (str "hello") = [] then []
        else [⟨(sampleWorld [(bobKeyFile, str "KEY")]).getenv (str "SENDMAIL_SMART_LOGIN"),
          bob :: [], str "...", sampleArmor (str "hello")⟩]) ∧
    encrypted (mainSubmit (sampleWorld [(bobKeyFile, str "KEY")]) (sampleFlags []) (bob :: [])
        (str "hello")).trace = [str "hello"] :=
  (mainSubmit_body (sampleWorld [(bobKeyFile, str "KEY")]) (sampleFlags []) bob []
    (str "hello")).2.2 (by decide) (Or.inl (by decide)) (sampleArmor (str "hello")) (by rfl)

/-! ## The SMTP path -/

theorem drainData_returns (verbose : Bool) (rs : List Result) :
    ∃ v, (drainData verbose rs).result = .ok v := by
  induction rs with
  | nil => exact ⟨none, rfl⟩
  | cons r rest ih =>
    obtain ⟨v, hv⟩ := ih
    unfold drainData
    split
    · exact ⟨v, by simp [Run.bind_def, Run.andThen, emit, hv]⟩
    · split
      · exact ⟨v, by simp [Run.bind_def, Run.andThen, emit, hv]⟩
      · split
        · exact ⟨r.Error, by simp [Run.bind_def, Run.andThen, emit, Run.pure_def, Run.ret]⟩
        · exact ⟨v, hv⟩

theorem Session.deliver_observed (w : World) (f : Flags) (s : Session) (subject body : Bytes) :
    handed (Session.deliver w f s subject body).trace = [⟨s.From, s.To, subject, body⟩] ∧
    keyReads (Session.deliver w f s subject body).trace = [] ∧
    encrypted (Session.deliver w f s subject body).trace = [] ∧
    ∃ v, (Session.deliver w f s subject body).result = .ok v := by
  obtain ⟨n1, n2, n3, n4, v, hv⟩ := NewEnvelope_observed w ⟨s.From, s.To, subject, body⟩
  unfold Session.deliver
  simp only [Run.bind_def]
  cases v with
  | error e =>
    simp [Run.andThen, emit, hv, Run.pure_def, Run.ret, handed, keyReads, encrypted,
      handed_append, keyReads_append, encrypted_append, n1, n3, n4]
  | ok envelope =>
    obtain ⟨d1, d2, d3, d4⟩ := drainData_observed f.verbose (w.sendLikeMTA envelope)
    obtain ⟨dv, hd⟩ := drainData_returns f.verbose (w.sendLikeMTA envelope)
    simp [Run.andThen, emit, hv, hd, Run.pure_def, Run.ret, handed, keyReads, encrypted,
      handed_append, keyReads_append, encrypted_append, n1, n3, n4, d1, d3, d4]

theorem Session.Data_handed (w : World) (f : Flags) (s : Session) (r subject chosen : Bytes)
    (h : (Session.select w f s r).result = .ok (subject, chosen))
    (hh : handed (Session.select w f s r).trace = []) :
    handed (Session.Data w f s r).trace = [⟨s.From, s.To, subject, chosen⟩] ∧
    encrypted (Session.Data w f s r).trace = encrypted (Session.select w f s r).trace := by
  obtain ⟨d1, _, d3, v, hv⟩ := Session.deliver_observed w f s subject chosen
  simp [Session.Data, Run.bind_def, Run.andThen, h, hv, Run.pure_def, Run.ret, handed_append,
    encrypted_append, hh, d1, d3]

theorem Session.select_nokey (w : World) (f : Flags) (s : Session) (r rcpt : Bytes)
    (more : List Bytes) (email : Bytes × Bytes) (hto : s.To = rcpt :: more)
    (hone : ¬ stringsCount atSign (stringsJoin [] s.To) > 1)
    (hp : w.parseMail [] = .ok email)
    (hk : (w.readFile (keyPath w rcpt (str ".pgp"))).isNotExist = true) :
    (Session.select w f s r).result = .ok (f.subject, r) ∧
    handed (Session.select w f s r).trace = [] ∧
    encrypted (Session.select w f s r).trace = [] ∧
    keyReads (Session.select w f s r).trace = [keyPath w rcpt (str ".pgp")] := by
  simp only [keyPath] at hk
  rw [hto] at hone
  unfold Session.select
  simp [hone, hto, hp, Run.bind_def, Run.pure_def, Run.ret, Run.andThen, emit, firstOf, readFile,
    hk, handed, encrypted, keyReads, keyPath]

theorem Session.select_unchanged (w : World) (f : Flags) (s : Session) (r rcpt : Bytes)
    (more : List Bytes) (email : Bytes × Bytes) (hto : s.To = rcpt :: more)
    (hone : ¬ stringsCount atSign (stringsJoin [] s.To) > 1)
    (hp : w.parseMail [] = .ok email)
    (hk : (w.readFile (keyPath w rcpt (str ".pgp"))).isNotExist = false)
    (hc : (w.readFile (keyPath w rcpt (str ".config"))).isNotExist = false)
    (hm : stringsContains (w.readFile (keyPath w rcpt (str ".config"))).content email.1
      = false) :
    (Session.select w f s r).result = .ok (str "...", r) ∧
    handed (Session.select w f s r).trace = [] ∧
    encrypted (Session.select w f s r).trace = [] := by
  simp only [keyPath] at hk hc hm
  rw [hto] at hone
  unfold Session.select
  simp [hone, hto, hp, Run.bind_def, Run.pure_def, Run.ret, Run.andThen, emit, firstOf, readFile,
    hk, hc, hm, handed, encrypted]

theorem Session.select_once (w : World) (f : Flags) (s : Session) (r rcpt : Bytes)
    (more : List Bytes) (email : Bytes × Bytes) (c : Bytes) (hto : s.To = rcpt :: more)
    (hone : ¬ stringsCount atSign (stringsJoin [] s.To) > 1)
    (hp : w.parseMail [] = .ok email)
    (hk : (w.readFile (keyPath w rcpt (str ".pgp"))).isNotExist = false)
    (hc : (w.readFile (keyPath w rcpt (str ".config"))).isNotExist = true)
    (he : (encrypter w (w.readFile (keyPath w rcpt (str ".pgp"))).content r).result = .ok c) :
    (Session.select w f s r).result = .ok (str "...", c) ∧
    handed (Session.select w f s r).trace = [] ∧
    encrypted (Session.select w f s r).trace = [r] := by
  obtain ⟨e1, e2, e3, e4⟩ :=
    encrypter_observed w (w.readFile (keyPath w rcpt (str ".pgp"))).content r
  simp only [keyPath] at hk hc he e1 e2 e3 e4
  rw [hto] at hone
  unfold Session.select
  simp only [hone, hto, hp, if_false, Run.bind_def, Run.pure_def, firstOf, Run.ret, Run.andThen,
    readFile, emit, hk, hc, if_true]
  generalize encrypter w (w.readFile (keyFile (hasher w rcpt) (str ".pgp"))).content r = E
    at he e1 e2 e3 e4 ⊢
  obtain ⟨tr, res⟩ := E
  simp only at he e1 e2 e3 e4
  subst he
  simp [handed, encrypted, handed_append, encrypted_append, e1, e3]

theorem Session.select_twice (w : World) (f : Flags) (s : Session) (r rcpt : Bytes)
    (more : List Bytes) (email : Bytes × Bytes) (c1 c2 : Bytes) (hto : s.To = rcpt :: more)
    (hone : ¬ stringsCount atSign (stringsJoin [] s.To) > 1)
    (hp : w.parseMail [] = .ok email)
    (hk : (w.readFile (keyPath w rcpt (str ".pgp"))).isNotExist = false)
    (hc : (w.readFile (keyPath w rcpt (str ".config"))).isNotExist = false)
    (hm : stringsContains (w.readFile (keyPath w rcpt (str ".config"))).content email.1 = true)
    (he1 : (encrypter w (w.readFile (keyPath w rcpt (str ".pgp"))).content r).result = .ok c1)
    (he2 : (encrypter w (w.readFile (keyPath w rcpt (str ".pgp"))).content c1).result
      = .ok c2) :
    (Session.select w f s r).result = .ok (str "...", c2) ∧
    handed (Session.select w f s r).trace = [] ∧
    encrypted (Session.select w f s r).trace = [r, c1] := by
  obtain ⟨a1, a2, a3, a4⟩ :=
    encrypter_observed w (w.readFile (keyPath w rcpt (str ".pgp"))).content r
  obtain ⟨b1, b2, b3, b4⟩ :=
    encrypter_observed w (w.readFile (keyPath w rcpt (str ".pgp"))).content c1
  simp only [keyPath] at hk hc hm he1 he2 a1 a2 a3 a4 b1 b2 b3 b4
  rw [hto] at hone
  unfold Session.select
  simp only [hone, hto, hp, if_false, Run.bind_def, Run.pure_def, firstOf, Run.ret, Run.andThen,
    readFile, emit, hk, hc, hm, if_true]
  generalize encrypter w (w.readFile (keyFile (hasher w rcpt) (str ".pgp"))).content r = E1
    at he1 a1 a2 a3 a4 ⊢
  obtain ⟨tr1, res1⟩ := E1
  simp only at he1 a1 a2 a3 a4
  subst he1
  simp only
  generalize encrypter w (w.readFile (keyFile (hasher w rcpt) (str ".pgp"))).content c1 = E2
    at he2 b1 b2 b3 b4 ⊢
  obtain ⟨tr2, res2⟩ := E2
  simp only at he2 b1 b2 b3 b4
  subst he2
  simp [handed, encrypted, handed_append, encrypted_append, a1, a3, b1, b3]

/-- C4: in `Session.Data`, with `rcpt` the first recipient and `subject` the
subject `parsemail.Parse` returned: the configuration handed to
`NewEnvelope` carries the body unchanged when no public key exists;
`encrypter` applied once when a public key exists and no policy document
exists; `encrypter` applied to the result of `encrypter`, two runs in
sequence, when a policy document exists and contains `subject`; and the
body unchanged when a policy document exists and does not contain
`subject`. -/
theorem Session.Data_body (w : World) (f : Flags) (s : Session) (r rcpt : Bytes)
    (more : List Bytes) (subject html : Bytes) (hto : s.To = rcpt :: more)
    (hone : ¬ stringsCount atSign (stringsJoin [] s.To) > 1)
    (hp : w.parseMail [] = .ok (subject, html)) :
    ((w.readFile (keyPath w rcpt (str ".pgp"))).isNotExist = true →
      handed (Session.Data w f s r).trace = [⟨s.From, s.To, f.subject, r⟩] ∧
      encrypted (Session.Data w f s r).trace = []) ∧
    ((w.readFile (keyPath w rcpt (str ".pgp"))).isNotExist = false →
      (w.readFile (keyPath w rcpt (str ".config"))).isNotExist = true →
      ∀ c, (encrypter w (w.readFile (keyPath w rcpt (str ".pgp"))).content r).result = .ok c →
      handed (Session.Data w f s r).trace = [⟨s.From, s.To, str "...", c⟩] ∧
      encrypted (Session.Data w f s r).trace = [r]) ∧
    ((w.readFile (keyPath w rcpt (str ".pgp"))).isNotExist = false →
      (w.readFile (keyPath w rcpt (str ".config"))).isNotExist = false →
      stringsContains (w.readFile (keyPath w rcpt (str ".config"))).content subject = true →
      ∀ c1 c2,
      (encrypter w (w.readFile (keyPath w rcpt (str ".pgp"))).content r).result = .ok c1 →
      (encrypter w (w.readFile (keyPath w rcpt (str ".pgp"))).content c1).result = .ok c2 →
      handed (Session.Data w f s r).trace = [⟨s.From, s.To, str "...", c2⟩] ∧
      encrypted (Session.Data w f s r).trace = [r, c1]) ∧
    ((w.readFile (keyPath w rcpt (str ".pgp"))).isNotExist = false →
      (w.readFile (keyPath w rcpt (str ".config"))).isNotExist = false →
      stringsContains (w.readFile (keyPath w rcpt (str ".config"))).content subject = false →
      handed (Session.Data w f s r).trace = [⟨s.From, s.To, str "...", r⟩] ∧
      encrypted (Session.Data w f s r).trace = []) := by
  refine ⟨fun hk => ?_, fun hk hc c he => ?_, fun hk hc hm c1 c2 he1 he2 => ?_,
    fun hk hc hm => ?_⟩
  · obtain ⟨a, b, c, _⟩ := Session.select_nokey w f s r rcpt more _ hto hone hp hk
    have := Session.Data_handed w f s r _ _ a b
    rw [c] at this
    exact this
  · obtain ⟨a, b, c⟩ := Session.select_once w f s r rcpt more _ c hto hone hp hk hc he
    have := Session.Data_handed w f s r _ _ a b
    rw [c] at this
    exact this
  · obtain ⟨a, b, c⟩ :=
      Session.select_twice w f s r rcpt more _ c1 c2 hto hone hp hk hc hm he1 he2
    have := Session.Data_handed w f s r _ _ a b
    rw [c] at this
    exact this
  · obtain ⟨a, b, c⟩ := Session.select_unchanged w f s r rcpt more _ hto hone hp hk hc hm
    have := Session.Data_handed w f s r _ _ a b
    rw [c] at this
    exact this

theorem Session.Data_body_witness :
    handed (Session.Data (sampleWorld [(bobKeyFile, str "KEY"), (bobPolicyFile, str "Invoice")])
        (sampleFlags []) ⟨alice, [bob]⟩ (str "hello")).trace =
      [⟨alice, [bob], str "...", sampleArmor (sampleArmor (str "hello"))⟩] ∧
    encrypted (Session.Data
        (sampleWorld [(bobKeyFile, str "KEY"), (bobPolicyFile, str "Invoice")])
        (sampleFlags []) ⟨alice, [bob]⟩ (str "hello")).trace =
      [str "hello", sampleArmor (str "hello")] :=
  (Session.Data_body (sampleWorld [(bobKeyFile, str "KEY"), (bobPolicyFile, str "Invoice")])
    (sampleFlags []) ⟨alice, [bob]⟩ (str "hello") bob [] (str "Invoice") [] rfl (by decide)
    rfl).2.2.1 (by decide) (by decide) (by decide) (sampleArmor (str "hello"))
    (sampleArmor (sampleArmor (str "hello"))) (by rfl) (by rfl)

/-! ## Rejected inputs -/

/-- C5: with an empty recipient list the command path performs no effect at
all (no key-store read, no encryption, no envelope, no send), but it does
not reject the input with an error: indexing the empty argument list at
`flag.Args()[0]` stops the process with a runtime panic. -/
theorem mainSubmit_no_recipients (w : World) (f : Flags) (body : Bytes) :
    mainSubmit w f [] body =
      ⟨[], .error (.panic (str "runtime error: index out of range [0] with length 0"))⟩ := by
  simp [mainSubmit, mainSelect, stringsCount, stringsJoin, firstOf, goPanic, Run.bind_def,
    Run.pure_def, Run.ret, Run.andThen]

theorem mainSubmit_rejected_empty (w : World) (f : Flags) (args : List Bytes) (body : Bytes)
    (subject : Bytes) (h : (mainSelect w f args body).result = .ok (subject, [])) :
    mainSubmit w f args body =
      ⟨(mainSelect w f args body).trace, .error (.fatal (str "Empty message body"))⟩ := by
  rw [mainSubmit_of_select w f args body _ h]
  simp [mainDeliver_empty]

theorem mainSubmit_keyReads (w : World) (f : Flags) (args : List Bytes) (body : Bytes)
    (subject chosen : Bytes) (h : (mainSelect w f args body).result = .ok (subject, chosen)) :
    keyReads (mainSubmit w f args body).trace = keyReads (mainSelect w f args body).trace := by
  rw [mainSubmit_of_select w f args body _ h]
  simp only [keyReads_append]
  by_cases hc : chosen = []
  · subst hc
    simp [mainDeliver_empty, keyReads]
  · simp [(mainDeliver_observed w f args subject chosen hc).2.1]

/-- C6: what the command path does with an empty input body, in every state
of the key store of the first recipient. The check `len(body) == 0` comes
after the key lookup and the encryption decision. When no public key
exists, or a policy document exists and does not contain `...`, the
public-key file (and the policy file) is read first and the run then ends
with `Empty message body`. When a public key exists and the policy document
is absent or contains `...`, three key-store files are read, the empty body
is given to `encrypter`, and the check sees the result of `encrypter`: a
result that is not empty is handed to `NewEnvelope`, so the empty message is
not rejected. -/
theorem mainSubmit_empty_body (w : World) (f : Flags) (rcpt : Bytes) (more : List Bytes) :
    ((w.readFile (keyPath w rcpt (str ".pgp"))).isNotExist = true →
      (mainSubmit w f (rcpt :: more) []).result = .error (.fatal (str "Empty message body")) ∧
      keyReads (mainSubmit w f (rcpt :: more) []).trace = [keyPath w rcpt (str ".pgp")] ∧
      handed (mainSubmit w f (rcpt :: more) []).trace = [] ∧
      encrypted (mainSubmit w f (rcpt :: more) []).trace = [] ∧
      sends (mainSubmit w f (rcpt :: more) []).trace = []) ∧
    ((w.readFile (keyPath w rcpt (str ".pgp"))).isNotExist = false →
      (w.readFile (keyPath w rcpt (str ".config"))).isNotExist = false →
      stringsContains (w.readFile (keyPath w rcpt (str ".config"))).content (str "...") = false →
      (mainSubmit w f (rcpt :: more) []).result = .error (.fatal (str "Empty message body")) ∧
      keyReads (mainSubmit w f (rcpt :: more) []).trace =
        [keyPath w rcpt (str ".pgp"), keyPath w rcpt (str ".config")] ∧
      handed (mainSubmit w f (rcpt :: more) []).trace = [] ∧
      encrypted (mainSubmit w f (rcpt :: more) []).trace = [] ∧
      sends (mainSubmit w f (rcpt :: more) []).trace = []) ∧
    ((w.readFile (keyPath w rcpt (str ".pgp"))).isNotExist = false →
      ((w.readFile (keyPath w rcpt (str ".config"))).isNotExist = true ∨
        stringsContains (w.readFile (keyPath w rcpt (str ".config"))).content (str "...")
          = true) →
      ∀ c, (encrypter w (w.readFile (keyPath w rcpt (str ".pgp"))).content []).result = .ok c →
      handed (mainSubmit w f (rcpt :: more) []).trace =
        (if c = [] then []
          else [⟨w.getenv (str "SENDMAIL_SMART_LOGIN"), rcpt :: more, str "...", c⟩]) ∧
      encrypted (mainSubmit w f (rcpt :: more) []).trace = [[]] ∧
      keyReads (mainSubmit w f (rcpt :: more) []).trace =
        [keyPath w rcpt (str ".pgp"), keyPath w rcpt (str ".config"),
          keyPath w (w.getenv (str "SENDMAIL_SMART_LOGIN")) (str ".privpgp")]) := by
  refine ⟨fun hk => ?_, fun hk hc hm => ?_, fun hk hc c he => ?_⟩
  · obtain ⟨r, h1, h2, h3, h4⟩ := mainSelect_nokey w f rcpt more [] hk
    rw [mainSubmit_rejected_empty w f _ [] _ r]
    exact ⟨rfl, h4, h1, h3, h2⟩
  · obtain ⟨r, h1, h2, h3, h4⟩ := mainSelect_unchanged w f rcpt more [] hk hc hm
    rw [mainSubmit_rejected_empty w f _ [] _ r]
    exact ⟨rfl, h4, h1, h3, h2⟩
  · obtain ⟨r, h1, _, h3, h4⟩ := mainSelect_encrypt w f rcpt more [] hk hc
    rw [he] at r
    refine ⟨mainSubmit_handed w f _ [] _ _ r h1, ?_, ?_⟩
    · rw [mainSubmit_encrypted w f _ [] _ _ r, h3]
    · rw [mainSubmit_keyReads w f _ [] _ _ r, h4]

theorem mainSubmit_empty_body_witness :
    handed (mainSubmit (sampleWorld [(bobKeyFile, str "KEY")]) (sampleFlags []) (bob :: [])
        []).trace =
      (if sampleArmor [] = [] then []
        else [⟨(sampleWorld [(bobKeyFile, str "KEY")]).getenv (str "SENDMAIL_SMART_LOGIN"),
          bob :: [], str "...", sampleArmor []⟩]) ∧
    encrypted (mainSubmit (sampleWorld [(bobKeyFile, str "KEY")]) (sampleFlags []) (bob :: [])
        []).trace = [[]] ∧
    keyReads (mainSubmit (sampleWorld [(bobKeyFile, str "KEY")]) (sampleFlags []) (bob :: [])
        []).trace =
      [keyPath (sampleWorld [(bobKeyFile, str "KEY")]) bob (str ".pgp"),
        keyPath (sampleWorld [(bobKeyFile, str "KEY")]) bob (str ".config"),
        keyPath (sampleWorld [(bobKeyFile, str "KEY")])
          ((sampleWorld [(bobKeyFile, str "KEY")]).getenv (str "SENDMAIL_SMART_LOGIN"))
          (str ".privpgp")] :=
  (mainSubmit_empty_body (sampleWorld [(bobKeyFile, str "KEY")]) (sampleFlags []) bob []).2.2
    (by decide) (Or.inl (by decide)) (sampleArmor []) (by rfl)

/-- A concrete run with an empty body, a public key for `bob` and no policy
document: the run is not stopped with `Empty message body`; it reads three
key-store files, hands the armored text to `NewEnvelope`, sends one envelope
and returns. -/
theorem mainSubmit_empty_body_sent :
    (mainSubmit (sampleWorld [(bobKeyFile, str "KEY")]) (sampleFlags []) [bob] []).result =
      .ok () ∧
    keyReads (mainSubmit (sampleWorld [(bobKeyFile, str "KEY")]) (sampleFlags []) [bob]
      []).trace =
      [bobKeyFile, bobPolicyFile, str "/keys/63c73acde900a478846b4241a9faf4e0.privpgp"] ∧
    (handed (mainSubmit (sampleWorld [(bobKeyFile, str "KEY")]) (sampleFlags []) [bob]
      []).trace).map (fun config => config.Body) = [sampleArmor []] ∧
    (sends (mainSubmit (sampleWorld [(bobKeyFile, str "KEY")]) (sampleFlags []) [bob]
      []).trace).length = 1 ∧
    sampleArmor [] ≠ [] := by
  refine ⟨by rfl, by rfl, by rfl, by rfl, by decide⟩

theorem unauthorized_eq_true_iff (sd : List Bytes) (x : Bytes) :
    unauthorized sd x = true ↔ sd ≠ [] ∧ x ∉ sd := by
  have h := unauthorized_eq_false_iff sd x
  constructor
  · intro hu
    have : ¬ (sd = [] ∨ x ∈ sd) := fun hh => by
      rw [h.mpr hh] at hu
      exact absurd hu (by simp)
    exact ⟨fun e => this (Or.inl e), fun e => this (Or.inr e)⟩
  · intro hh
    cases hu : unauthorized sd x with
    | true => rfl
    | false =>
      rcases h.mp hu with e | e
      · exact absurd e hh.1
      · exact absurd e hh.2

theorem mainSelect_reads_key (w : World) (f : Flags) (rcpt : Bytes) (more : List Bytes)
    (body : Bytes) :
    sends (mainSelect w f (rcpt :: more) body).trace = [] ∧
    ∃ later, keyReads (mainSelect w f (rcpt :: more) body).trace =
      keyPath w rcpt (str ".pgp") :: later := by
  cases hk : (w.readFile (keyPath w rcpt (str ".pgp"))).isNotExist with
  | true =>
    obtain ⟨_, _, h2, _, h4⟩ := mainSelect_nokey w f rcpt more body hk
    exact ⟨h2, [], h4⟩
  | false =>
    cases hc : (w.readFile (keyPath w rcpt (str ".config"))).isNotExist with
    | true =>
      obtain ⟨_, _, h2, _, h4⟩ := mainSelect_encrypt w f rcpt more body hk (Or.inl hc)
      exact ⟨h2, _, h4⟩
    | false =>
      cases hm : stringsContains (w.readFile (keyPath w rcpt (str ".config"))).content
          (str "...") with
      | true =>
        obtain ⟨_, _, h2, _, h4⟩ := mainSelect_encrypt w f rcpt more body hk (Or.inr hm)
        exact ⟨h2, _, h4⟩
      | false =>
        obtain ⟨_, _, h2, _, h4⟩ := mainSelect_unchanged w f rcpt more body hk hc hm
        exact ⟨h2, _, h4⟩

theorem mainDeliver_unauthorized (w : World) (f : Flags) (args : List Bytes)
    (subject body : Bytes) (envelope : Envelope) (sender : Bytes) (more : List Bytes)
    (hb : body ≠ [])
    (hn : (NewEnvelope w ⟨w.getenv (str "SENDMAIL_SMART_LOGIN"), args, subject, body⟩).result =
      .ok (.ok envelope))
    (hf : headerValues envelope.Message.Header (str "From") = sender :: more)
    (hu : unauthorized f.senderDomains (GetDomainFromAddress sender) = true) :
    (mainDeliver w f args subject body).result =
      .error (.fatal (str "Attempt to unauthorized send with domain " ++
        GetDomainFromAddress sender)) ∧
    sends (mainDeliver w f args subject body).trace = [] := by
  obtain ⟨_, n2, _, _, _⟩ := NewEnvelope_observed w
    ⟨w.getenv (str "SENDMAIL_SMART_LOGIN"), args, subject, body⟩
  have hl : ¬ body.length = 0 := by simpa using hb
  unfold mainDeliver
  simp [hl, Run.bind_def, Run.andThen, emit, hn, orFatal, Run.pure_def, Run.ret,
    checkSenderDomain, hf, firstOf, hu, logFatal, sends, sends_append, n2]

/-- C7, as amended: when the allow-list is not empty and the domain of the
sender is not in it, the operation is rejected and nothing is sent, so no
sequence of results is produced. On the SMTP path the rejection is made by
`Session.Mail` and the transaction reads no key-store file. On the command
path the check is made on the `From` header of the built envelope, after the
encryption decision: the public-key file of the first recipient has been
read by then. -/
theorem unauthorized_rejected (w : World) (f : Flags) (s : Session) (sender rcptLine r : Bytes)
    (rcpt : Bytes) (more : List Bytes) (body subject chosen : Bytes) (envelope : Envelope)
    (headerFrom : Bytes) (others : List Bytes) :
    (f.senderDomains ≠ [] → GetDomainFromAddress sender ∉ f.senderDomains →
      (smtpTransaction w f s sender rcptLine r).result =
        .ok (some (str "unauthorized sender domain " ++ GetDomainFromAddress sender)) ∧
      keyReads (smtpTransaction w f s sender rcptLine r).trace = [] ∧
      handed (smtpTransaction w f s sender rcptLine r).trace = [] ∧
      sends (smtpTransaction w f s sender rcptLine r).trace = []) ∧
    (f.senderDomains ≠ [] → GetDomainFromAddress headerFrom ∉ f.senderDomains →
      (mainSelect w f (rcpt :: more) body).result = .ok (subject, chosen) → chosen ≠ [] →
      (NewEnvelope w ⟨w.getenv (str "SENDMAIL_SMART_LOGIN"), rcpt :: more, subject,
        chosen⟩).result = .ok (.ok envelope) →
      headerValues envelope.Message.Header (str "From") = headerFrom :: others →
      (mainSubmit w f (rcpt :: more) body).result =
        .error (.fatal (str "Attempt to unauthorized send with domain " ++
          GetDomainFromAddress headerFrom)) ∧
      sends (mainSubmit w f (rcpt :: more) body).trace = [] ∧
      ∃ later, keyReads (mainSubmit w f (rcpt :: more) body).trace =
        keyPath w rcpt (str ".pgp") :: later) := by
  constructor
  · intro hne hnot
    have hu := (unauthorized_eq_true_iff _ _).mpr ⟨hne, hnot⟩
    simp [smtpTransaction, Session.Mail, hu, Run.bind_def, Run.andThen, emit, Run.pure_def,
      Run.ret, keyReads, handed, sends]
  · intro hne hnot hsel hch hnew hfrom
    have hu := (unauthorized_eq_true_iff _ _).mpr ⟨hne, hnot⟩
    obtain ⟨d1, d2⟩ := mainDeliver_unauthorized w f (rcpt :: more) subject chosen envelope
      headerFrom others hch hnew hfrom hu
    obtain ⟨s1, later, s2⟩ := mainSelect_reads_key w f rcpt more body
    rw [mainSubmit_of_select w f _ body _ hsel]
    refine ⟨d1, ?_, ?_⟩
    · simp only [sends_append, s1, d2, List.append_nil]
    · simp only [keyReads_append, s2]
      exact ⟨_, rfl⟩

theorem unauthorized_rejected_witness :
    ((smtpTransaction (sampleWorld [(bobKeyFile, str "KEY")]) (sampleFlags [str "example.com"])
        ⟨[], []⟩ alice bob (str "hello")).result =
      .ok (some (str "unauthorized sender domain " ++ GetDomainFromAddress alice)) ∧
    keyReads (smtpTransaction (sampleWorld [(bobKeyFile, str "KEY")])
      (sampleFlags [str "example.com"]) ⟨[], []⟩ alice bob (str "hello")).trace = [] ∧
    handed (smtpTransaction (sampleWorld [(bobKeyFile, str "KEY")])
      (sampleFlags [str "example.com"]) ⟨[], []⟩ alice bob (str "hello")).trace = [] ∧
    sends (smtpTransaction (sampleWorld [(bobKeyFile, str "KEY")])
      (sampleFlags [str "example.com"]) ⟨[], []⟩ alice bob (str "hello")).trace = []) ∧
    ((mainSubmit (sampleWorld []) (sampleFlags [str "example.com"])
        (bob :: []) (str "hello")).result =
      .error (.fatal (str "Attempt to unauthorized send with domain " ++
        GetDomainFromAddress alice)) ∧
    sends (mainSubmit (sampleWorld []) (sampleFlags [str "example.com"])
      (bob :: []) (str "hello")).trace = [] ∧
    ∃ later, keyReads (mainSubmit (sampleWorld [])
        (sampleFlags [str "example.com"]) (bob :: []) (str "hello")).trace =
      keyPath (sampleWorld []) bob (str ".pgp") :: later) :=
  ⟨(unauthorized_rejected (sampleWorld [(bobKeyFile, str "KEY")])
      (sampleFlags [str "example.com"]) ⟨[], []⟩ alice bob (str "hello") bob [] (str "hello")
      [] (str "hello") (sampleEnvelope []) alice []).1 (by decide) (by decide),
    (unauthorized_rejected (sampleWorld []) (sampleFlags [str "example.com"]) ⟨[], []⟩ alice bob
      (str "hello") bob [] (str "hello") [] (str "hello") (sampleEnvelope []) alice []).2
      (by decide) (by decide) (by rfl) (by decide) (by rfl) (by decide)⟩

/-- C7, the statement as written fails on the command path: with the
allow-list `example.com` and the sender `alice@other.com` the run is
rejected, but only after the public-key file of `bob` has been read. -/
theorem unauthorized_reads_counterexample :
    ¬ ((mainSubmit (sampleWorld []) (sampleFlags [str "example.com"]) [bob]
        (str "hello")).result =
        .error (.fatal (str "Attempt to unauthorized send with domain other.com")) ∧
      keyReads (mainSubmit (sampleWorld []) (sampleFlags [str "example.com"]) [bob]
        (str "hello")).trace = [] ∧
      sends (mainSubmit (sampleWorld []) (sampleFlags [str "example.com"]) [bob]
        (str "hello")).trace = []) := by
  intro h
  have h1 : keyReads (mainSubmit (sampleWorld []) (sampleFlags [str "example.com"]) [bob]
      (str "hello")).trace = [bobKeyFile] := by rfl
  rw [h1] at h
  exact absurd h.2.1 (by simp)

/-! ## The `Subject` header and the multipart text -/

theorem headerValues_headerSet (h : Header) (key : Bytes) (values : List Bytes) :
    headerValues (headerSet h key values) key = values := by
  simp [headerSet, headerValues]

theorem buildEnvelope_header (w : World) (config : Config) (msg : Message) (envelope : Envelope)
    (h : buildEnvelope w config msg = .ok envelope) :
    envelope.Message.Header = subjectHeader config (senderHeader w config msg.Header) := by
  unfold buildEnvelope at h
  simp only at h
  split at h
  · exact absurd h (by simp)
  · split at h
    · exact absurd h (by simp)
    · injection h with h
      rw [← h]

theorem NewEnvelope_built (w : World) (config : Config) (envelope : Envelope)
    (h : (NewEnvelope w config).result = .ok (.ok envelope)) :
    ∃ msg, buildEnvelope w config msg = .ok envelope := by
  obtain ⟨_, _, _, _, v, hv⟩ := GetDumbMessage_trace w config.Sender config.Recipients
    (w.dumbSubject config) config.Body
  unfold NewEnvelope at h
  cases hr : w.readMessage config.Body with
  | ok msg =>
    simp [hr, Run.bind_def, Run.pure_def, Run.andThen, Run.ret] at h
    exact ⟨msg, h⟩
  | error err =>
    by_cases hlen : config.Recipients.length > 0
    · cases v with
      | ok msg =>
        simp [hr, hlen, hv, Run.bind_def, Run.pure_def, Run.andThen, Run.ret] at h
        exact ⟨msg, h⟩
      | error e =>
        simp [hr, hlen, hv, Run.bind_def, Run.pure_def, Run.andThen, Run.ret] at h
    · simp [hr, hlen, Run.bind_def, Run.pure_def, Run.andThen, Run.ret] at h

theorem append_ne_append_suffix (x y : Bytes) (hy : y ≠ []) : x ≠ x ++ y := by
  intro h
  have := congrArg List.length h
  simp at this
  exact hy this

/-- C8: for a non-empty subject the envelope `NewEnvelope` returns has
exactly one `Subject` value, `=?UTF-8?B?` followed by the base64 text of the
subject; the terminator `?=` of an encoded-word is not written, so the value
is not the encoded-word of the subject. For an empty subject the header is
left as it was. -/
theorem NewEnvelope_subject (w : World) (config : Config) (envelope : Envelope)
    (header : Header) :
    ((NewEnvelope w config).result = .ok (.ok envelope) → config.Subject ≠ [] →
      headerValues envelope.Message.Header (str "Subject") =
        [str "=?UTF-8?B?" ++ base64Encode config.Subject] ∧
      headerValues envelope.Message.Header (str "Subject") ≠ [encodedWord config.Subject]) ∧
    (config.Subject = [] → subjectHeader config header = header) := by
  constructor
  · intro h hs
    obtain ⟨msg, hb⟩ := NewEnvelope_built w config envelope h
    rw [buildEnvelope_header w config msg envelope hb]
    have hv : headerValues (subjectHeader config (senderHeader w config msg.Header))
        (str "Subject") = [str "=?UTF-8?B?" ++ base64Encode config.Subject] := by
      simp only [subjectHeader, hs, ne_eq, not_false_eq_true, if_true]
      exact headerValues_headerSet _ _ _
    refine ⟨hv, ?_⟩
    rw [hv]
    intro e
    have e' : str "=?UTF-8?B?" ++ base64Encode config.Subject = encodedWord config.Subject := by
      injection e
    exact append_ne_append_suffix _ (str "?=") (by decide) e'
  · intro hs
    simp [subjectHeader, hs]

theorem NewEnvelope_subject_witness :
    headerValues (sampleEnvelope (str "hi")).Message.Header (str "Subject") =
      [str "=?UTF-8?B?" ++ base64Encode (str "hi")] ∧
    headerValues (sampleEnvelope (str "hi")).Message.Header (str "Subject") ≠
      [encodedWord (str "hi")] :=
  (NewEnvelope_subject (sampleWorld []) ⟨alice, [bob], str "hi", str "hello"⟩
    (sampleEnvelope (str "hi")) []).1 (by rfl) (by decide)

/-- A concrete run with the subject `hi`: the `Subject` value of the envelope is
`=?UTF-8?B?aGk=`, without the terminator of the encoded-word
`=?UTF-8?B?aGk=?=`. -/
theorem NewEnvelope_subject_hi :
    (NewEnvelope (sampleWorld []) ⟨alice, [bob], str "hi", str "hello"⟩).result =
      .ok (.ok (sampleEnvelope (str "hi"))) ∧
    headerValues (sampleEnvelope (str "hi")).Message.Header (str "Subject") =
      [str "=?UTF-8?B?aGk="] ∧
    encodedWord (str "hi") = str "=?UTF-8?B?aGk=?=" := by
  refine ⟨by rfl, by decide, by decide⟩

theorem multipartText_ne_described (sender : Bytes) (recipients : List Bytes) (body : Bytes) :
    multipartText sender recipients body ≠ describedMultipartText sender recipients body := by
  intro h
  have h' := congrArg (List.take 89) h
  simp only [multipartText, describedMultipartText, List.append_assoc] at h'
  rw [List.take_append_of_le_length (by decide), List.take_append_of_le_length (by decide)] at h'
  revert h'
  decide

/-- C9: for a non-empty recipient list and the subject `...`,
`GetDumbMessage` parses the text `multipartText`. That text is not the one
described: its first `WriteString` is a raw literal, so after
`protocol="application/pgp-encrypted"` come the four characters `\r\n` and
then `From: ` and the sender, all before the first CRLF. The `Content-Type`
line therefore runs on through the `From` line, and the header section has
three CRLF-terminated lines, not four. -/
theorem GetDumbMessage_multipart (w : World) (sender : Bytes) (recipients : List Bytes)
    (body : Bytes) :
    (recipients ≠ [] →
      (GetDumbMessage w sender recipients (str "...") body).result =
        .ok (w.readMessage (multipartText sender recipients body))) ∧
    multipartText sender recipients body ≠ describedMultipartText sender recipients body ∧
    (str "Content-Type: multipart/encrypted; boundary=\"ca4\"; protocol=\"application/pgp-encrypted\"\\r\\nFrom: "
        ++ sender ++ str "\r\n") <+: multipartText sender recipients body := by
  refine ⟨fun hr => ?_, multipartText_ne_described sender recipients body, ?_⟩
  · have hl : ¬ recipients.length = 0 := by
      intro e
      exact hr (List.length_eq_zero.mp e)
    simp [GetDumbMessage, hl, Run.bind_def, Run.pure_def, Run.ret, Run.andThen, emit]
  · have : str "Content-Type: multipart/encrypted; boundary=\"ca4\"; protocol=\"application/pgp-encrypted\"\\r\\nFrom: "
        = str "Content-Type: multipart/encrypted; boundary=\"ca4\"; protocol=\"application/pgp-encrypted\"\\r\\n"
          ++ str "From: " := by decide
    rw [this]
    simp only [multipartText, List.append_assoc]
    exact List.prefix_append_right_inj _ |>.mpr (List.prefix_append_right_inj _ |>.mpr
      (List.prefix_append_right_inj _ |>.mpr (List.prefix_append _ _)))

theorem GetDumbMessage_multipart_witness :
    (GetDumbMessage (sampleWorld []) alice [bob] (str "...") (str "BODY")).result =
      .ok ((sampleWorld []).readMessage (multipartText alice [bob] (str "BODY"))) :=
  (GetDumbMessage_multipart (sampleWorld []) alice [bob] (str "BODY")).1 (by decide)

/-- A concrete text from `alice` to `bob`: the header section of the written text has
three lines, the first holding `Content-Type` and `From` together, where the
described text has four; read as a message, the text has no `From` header. -/
theorem GetDumbMessage_multipart_lines :
    headerLines (multipartText alice [bob] (str "BODY")) =
      [str "Content-Type: multipart/encrypted; boundary=\"ca4\"; protocol=\"application/pgp-encrypted\"\\r\\nFrom: alice@other.com",
        str "To: bob@example.com", str "Subject: ..."] ∧
    headerLines (describedMultipartText alice [bob] (str "BODY")) =
      [str "Content-Type: multipart/encrypted; boundary=\"ca4\"; protocol=\"application/pgp-encrypted\"",
        str "From: alice@other.com", str "To: bob@example.com", str "Subject: ..."] ∧
    (sampleReadMessage (multipartText alice [bob] (str "BODY"))).toOption.map
      (fun m => headerValues m.Header (str "From")) = some [] := by
  refine ⟨by decide, by decide, by decide⟩

end Sendmail
